import Mathlib

/-!
Verification development for the digital-studio backend (src/index.js).

The JavaScript source is shallowly embedded: JS strings become `String`
(lists of `Char`), the regex character class `[a-zA-Z0-9]` becomes the
`isAsciiAlnum` predicate, JS objects used as string-keyed maps become
association lists with last-write-wins update (`objSet`), thrown
exceptions become `Except`, and the external generative-AI backend is an
oracle parameter giving the outcome of each attempt/invocation.
`Math.random()` is an injected `rand : Nat` parameter.
-/

namespace DigitalStudio

/-! ## ASCII character helpers (the regex classes used by the source) -/

/-- `[a-z]` of the source regexes, by Unicode code point. -/
def isAsciiLower (c : Char) : Bool :=
  97 ≤ c.toNat && c.toNat ≤ 122

/-- `[A-Z]` of the source regexes, by Unicode code point. -/
def isAsciiUpper (c : Char) : Bool :=
  65 ≤ c.toNat && c.toNat ≤ 90

/-- `[0-9]` of the source regexes, by Unicode code point. -/
def isAsciiDigit (c : Char) : Bool :=
  48 ≤ c.toNat && c.toNat ≤ 57

/-- The regex class `[a-zA-Z0-9]` used in `toPascalCase`. -/
def isAsciiAlnum (c : Char) : Bool :=
  isAsciiLower c || isAsciiUpper c || isAsciiDigit c

/-- JS `String.prototype.toUpperCase` restricted to one character; on the
ASCII range (the only characters our words can contain) it subtracts 32
from a lowercase code point. -/
def jsToUpperChar (c : Char) : Char :=
  if isAsciiLower c then Char.ofNat (c.toNat - 32) else c

/-- JS `String.prototype.toLowerCase` restricted to one character. -/
def jsToLowerChar (c : Char) : Char :=
  if isAsciiUpper c then Char.ofNat (c.toNat + 32) else c

/-! ## Regex-run collapsing and `split(' ')` -/

/-- One pass of `replace(/P+/g, sep)`: the flag records whether we are
inside a run of characters matching `p` (already replaced by `sep`). -/
def collapseRunsAux (p : Char → Bool) (sep : Char) : Bool → List Char → List Char
  | _, [] => []
  | inRun, c :: cs =>
    if p c then
      if inRun then collapseRunsAux p sep true cs
      else sep :: collapseRunsAux p sep true cs
    else c :: collapseRunsAux p sep false cs

/-- JS `replace(/[^a-zA-Z0-9]+/g, ' ')` from `toPascalCase`. -/
def collapseNonAlnumRuns (l : List Char) : List Char :=
  collapseRunsAux (fun c => !(isAsciiAlnum c)) ' ' false l

/-- JS `split(' ')`: split at every single space character. -/
def jsSplitOnSpace : List Char → List (List Char)
  | [] => [[]]
  | c :: cs =>
    if c = ' ' then [] :: jsSplitOnSpace cs
    else
      match jsSplitOnSpace cs with
      | [] => [[c]]
      | w :: ws => (c :: w) :: ws

/-- JS `word.charAt(0).toUpperCase() + word.slice(1).toLowerCase()`. -/
def jsCapWord : List Char → List Char
  | [] => []
  | c :: cs => jsToUpperChar c :: cs.map jsToLowerChar

/-! ## The Identifier Normalizer (`toPascalCase`, src/index.js lines 81-90) -/

/-- `toPascalCase(str)`. A `none` argument models a non-string JS value
(`typeof str !== 'string'`); `rand` injects the `Math.floor(Math.random()
* 1000)` sample used by the fallback branch. -/
def toPascalCase (rand : Nat) (str : Option String) : String :=
  match str with
  | none => "Component" ++ toString (rand % 1000)
  | some s =>
    if s = "" then "Component" ++ toString (rand % 1000)
    else String.mk (((jsSplitOnSpace (collapseNonAlnumRuns s.data)).map jsCapWord).flatten)

/-! ## The Plan data model (src/index.js lines 320-326) -/

/-- The raw parsed JSON plan `{pages, reusable_components}` as produced
by `parseJsonWithCorrection` in the PLAN stage; a list entry is `none`
when the JSON array held a non-string value. -/
structure RawPlan where
  pages : List (Option String)
  reusable_components : List (Option String)
deriving DecidableEq, Repr

/-- The normalized plan after `plan.pages = plan.pages.map(toPascalCase)`
and `plan.reusable_components = plan.reusable_components.map(toPascalCase)`
(src/index.js lines 324-325). -/
structure Plan where
  pages : List String
  reusable_components : List String
deriving DecidableEq, Repr

/-- Lines 324-325 of src/index.js: elementwise normalization of both
identifier lists. -/
def normalizePlan (rand : Nat) (raw : RawPlan) : Plan :=
  { pages := raw.pages.map (toPascalCase rand),
    reusable_components := raw.reusable_components.map (toPascalCase rand) }

/-! ## Character-level lemmas -/

theorem toNat_ofNat_of_lt {n : Nat} (h : n < 55296) : (Char.ofNat n).toNat = n := by
  rw [Char.ofNat, dif_pos (Or.inl h)]
  simp [Char.ofNatAux, Char.toNat, UInt32.toNat]

theorem isAsciiAlnum_ne_space {c : Char} (h : isAsciiAlnum c = true) : c ≠ ' ' := by
  intro hc
  subst hc
  simp [isAsciiAlnum, isAsciiLower, isAsciiUpper, isAsciiDigit] at h

theorem jsToUpperChar_upper_or_digit {c : Char} (h : isAsciiAlnum c = true) :
    isAsciiUpper (jsToUpperChar c) = true ∨ isAsciiDigit (jsToUpperChar c) = true := by
  simp only [isAsciiAlnum, isAsciiLower, isAsciiUpper, isAsciiDigit, Bool.or_eq_true,
    Bool.and_eq_true, decide_eq_true_eq] at h ⊢
  unfold jsToUpperChar
  split
  · next hl =>
    simp only [isAsciiLower, Bool.and_eq_true, decide_eq_true_eq] at hl
    rw [toNat_ofNat_of_lt (by omega)]
    omega
  · next hl =>
    simp only [isAsciiLower, Bool.and_eq_true, decide_eq_true_eq, not_and, not_le] at hl
    omega

theorem jsToUpperChar_isAlnum {c : Char} (h : isAsciiAlnum c = true) :
    isAsciiAlnum (jsToUpperChar c) = true := by
  rcases jsToUpperChar_upper_or_digit h with h2 | h2 <;>
    simp [isAsciiAlnum, h2]

theorem jsToLowerChar_isAlnum {c : Char} (h : isAsciiAlnum c = true) :
    isAsciiAlnum (jsToLowerChar c) = true := by
  simp only [isAsciiAlnum, isAsciiLower, isAsciiUpper, isAsciiDigit, Bool.or_eq_true,
    Bool.and_eq_true, decide_eq_true_eq] at h ⊢
  unfold jsToLowerChar
  split
  · next hu =>
    simp only [isAsciiUpper, Bool.and_eq_true, decide_eq_true_eq] at hu
    rw [toNat_ofNat_of_lt (by omega)]
    omega
  · next hu =>
    simp only [isAsciiUpper, Bool.and_eq_true, decide_eq_true_eq, not_and, not_le] at hu
    omega

/-! ## Lemmas about run-collapsing, splitting and capitalization -/

theorem collapseRunsAux_cons_pos_true {p : Char → Bool} {sep d : Char} {ds : List Char}
    (hd : p d = true) :
    collapseRunsAux p sep true (d :: ds) = collapseRunsAux p sep true ds := by
  simp [collapseRunsAux, hd]

theorem collapseRunsAux_cons_pos_false {p : Char → Bool} {sep d : Char} {ds : List Char}
    (hd : p d = true) :
    collapseRunsAux p sep false (d :: ds) = sep :: collapseRunsAux p sep true ds := by
  simp [collapseRunsAux, hd]

theorem collapseRunsAux_cons_neg {p : Char → Bool} {sep d : Char} {ds : List Char} {b : Bool}
    (hd : p d = false) :
    collapseRunsAux p sep b (d :: ds) = d :: collapseRunsAux p sep false ds := by
  simp [collapseRunsAux, hd]

theorem mem_collapseRunsAux {p : Char → Bool} {sep : Char} :
    ∀ (b : Bool) (l : List Char) (c : Char), c ∈ collapseRunsAux p sep b l →
      c = sep ∨ (c ∈ l ∧ p c = false) := by
  intro b l
  induction l generalizing b with
  | nil => intro c hc; simp [collapseRunsAux] at hc
  | cons d ds ih =>
    intro c hc
    by_cases hd : p d = true
    · cases b with
      | true =>
        rw [collapseRunsAux_cons_pos_true hd] at hc
        rcases ih true c hc with h | ⟨h1, h2⟩
        · exact Or.inl h
        · exact Or.inr ⟨List.mem_cons_of_mem _ h1, h2⟩
      | false =>
        rw [collapseRunsAux_cons_pos_false hd] at hc
        rcases List.mem_cons.mp hc with h | h
        · exact Or.inl h
        · rcases ih true c h with h2 | ⟨h3, h4⟩
          · exact Or.inl h2
          · exact Or.inr ⟨List.mem_cons_of_mem _ h3, h4⟩
    · rw [Bool.not_eq_true] at hd
      rw [collapseRunsAux_cons_neg hd] at hc
      rcases List.mem_cons.mp hc with h | h
      · subst h; exact Or.inr ⟨List.mem_cons_self _ _, hd⟩
      · rcases ih false c h with h2 | ⟨h3, h4⟩
        · exact Or.inl h2
        · exact Or.inr ⟨List.mem_cons_of_mem _ h3, h4⟩

theorem jsSplitOnSpace_ne_nil : ∀ l : List Char, jsSplitOnSpace l ≠ [] := by
  intro l
  induction l with
  | nil => simp [jsSplitOnSpace]
  | cons c cs ih =>
    unfold jsSplitOnSpace
    split
    · simp
    · cases h : jsSplitOnSpace cs with
      | nil => exact absurd h ih
      | cons w ws => simp

theorem mem_jsSplitOnSpace : ∀ (l : List Char) (w : List Char) (c : Char),
    w ∈ jsSplitOnSpace l → c ∈ w → c ∈ l ∧ c ≠ ' ' := by
  intro l
  induction l with
  | nil =>
    intro w c hw hc
    simp [jsSplitOnSpace] at hw
    subst hw
    simp at hc
  | cons d ds ih =>
    intro w c hw hc
    unfold jsSplitOnSpace at hw
    by_cases hd : d = ' '
    · simp only [hd, if_true, List.mem_cons] at hw
      rcases hw with h | h
      · subst h; simp at hc
      · rcases ih w c h hc with ⟨h1, h2⟩
        exact ⟨List.mem_cons_of_mem _ h1, h2⟩
    · simp only [hd, if_false] at hw
      cases hsplit : jsSplitOnSpace ds with
      | nil => exact absurd hsplit (jsSplitOnSpace_ne_nil ds)
      | cons w0 ws =>
        rw [hsplit] at hw
        simp only [List.mem_cons] at hw
        rcases hw with h | h
        · subst h
          simp only [List.mem_cons] at hc
          rcases hc with h2 | h2
          · subst h2; exact ⟨List.mem_cons_self _ _, hd⟩
          · rcases ih w0 c (by rw [hsplit]; exact List.mem_cons_self _ _) h2 with ⟨h3, h4⟩
            exact ⟨List.mem_cons_of_mem _ h3, h4⟩
        · rcases ih w c (by rw [hsplit]; exact List.mem_cons_of_mem _ h) hc with ⟨h3, h4⟩
          exact ⟨List.mem_cons_of_mem _ h3, h4⟩

theorem mem_jsCapWord {w : List Char} {c : Char} (hc : c ∈ jsCapWord w) :
    ∃ d ∈ w, c = jsToUpperChar d ∨ c = jsToLowerChar d := by
  cases w with
  | nil => simp [jsCapWord] at hc
  | cons d ds =>
    simp only [jsCapWord, List.mem_cons] at hc
    rcases hc with h | h
    · exact ⟨d, List.mem_cons_self _ _, Or.inl h⟩
    · rcases List.mem_map.mp h with ⟨e, he, heq⟩
      exact ⟨e, List.mem_cons_of_mem _ he, Or.inr heq.symm⟩

theorem jsSplitOnSpace_cons_space (X : List Char) :
    jsSplitOnSpace (' ' :: X) = [] :: jsSplitOnSpace X := by
  simp [jsSplitOnSpace]

theorem jsSplitOnSpace_cons_ne {d : Char} {X w : List Char} {ws : List (List Char)}
    (hne : d ≠ ' ') (h : jsSplitOnSpace X = w :: ws) :
    jsSplitOnSpace (d :: X) = (d :: w) :: ws := by
  simp only [jsSplitOnSpace, h, if_neg hne]

/-- Every character of the PascalCase body comes from an alphanumeric
character of the input, case-mapped. -/
theorem mem_pascal_flatten {l : List Char} {c : Char}
    (hc : c ∈ ((jsSplitOnSpace (collapseNonAlnumRuns l)).map jsCapWord).flatten) :
    ∃ d ∈ l, isAsciiAlnum d = true ∧ (c = jsToUpperChar d ∨ c = jsToLowerChar d) := by
  rcases List.mem_flatten.mp hc with ⟨w2, hw2, hcw⟩
  rcases List.mem_map.mp hw2 with ⟨w, hw, rfl⟩
  rcases mem_jsCapWord hcw with ⟨d, hd, hor⟩
  rcases mem_jsSplitOnSpace _ w d hw hd with ⟨hdc, hdne⟩
  rcases mem_collapseRunsAux false _ d hdc with h | ⟨hdl, hp⟩
  · exact absurd h hdne
  · have hda : isAsciiAlnum d = true := by
      cases hh : isAsciiAlnum d with
      | false => rw [hh] at hp; simp at hp
      | true => rfl
    exact ⟨d, hdl, hda, hor⟩

/-- If the input has an alphanumeric character, the PascalCase body starts
with the upper-cased image of such a character. -/
theorem pascal_flatten_head :
    ∀ (b : Bool) (l : List Char), (∃ c ∈ l, isAsciiAlnum c = true) →
    ∃ c cs, ((jsSplitOnSpace (collapseRunsAux (fun c => !(isAsciiAlnum c)) ' ' b l)).map
        jsCapWord).flatten = jsToUpperChar c :: cs ∧ isAsciiAlnum c = true := by
  intro b l
  induction l generalizing b with
  | nil => rintro ⟨c, hc, -⟩; simp at hc
  | cons d ds ih =>
    rintro ⟨c0, hc0, hc0a⟩
    by_cases hd : isAsciiAlnum d = true
    · have hneg : (fun c => !(isAsciiAlnum c)) d = false := by simp [hd]
      rw [collapseRunsAux_cons_neg hneg]
      cases hsplit : jsSplitOnSpace (collapseRunsAux (fun c => !(isAsciiAlnum c)) ' ' false ds) with
      | nil => exact absurd hsplit (jsSplitOnSpace_ne_nil _)
      | cons w ws =>
        rw [jsSplitOnSpace_cons_ne (isAsciiAlnum_ne_space hd) hsplit]
        exact ⟨d, w.map jsToLowerChar ++ (ws.map jsCapWord).flatten, by simp [jsCapWord], hd⟩
    · have hpos : (fun c => !(isAsciiAlnum c)) d = true := by
        simp only [Bool.not_eq_true] at hd; simp [hd]
      have hmem : ∃ c ∈ ds, isAsciiAlnum c = true := by
        rcases List.mem_cons.mp hc0 with rfl | h
        · exact absurd hc0a hd
        · exact ⟨c0, h, hc0a⟩
      cases b with
      | true =>
        rw [collapseRunsAux_cons_pos_true hpos]
        exact ih true hmem
      | false =>
        rw [collapseRunsAux_cons_pos_false hpos, jsSplitOnSpace_cons_space]
        simpa [jsCapWord] using ih true hmem

/-- All characters of a normalized non-empty identifier are alphanumeric. -/
theorem toPascalCase_chars {rand : Nat} {s : String} (hs : s ≠ "") :
    ∀ c ∈ (toPascalCase rand (some s)).data, isAsciiAlnum c = true := by
  intro c hc
  simp only [toPascalCase] at hc
  rw [if_neg hs] at hc
  rcases mem_pascal_flatten hc with ⟨d, -, hda, hor⟩
  rcases hor with rfl | rfl
  · exact jsToUpperChar_isAlnum hda
  · exact jsToLowerChar_isAlnum hda

/-- If the input has an alphanumeric character, the normalized identifier is
non-empty and starts with the upper-cased image of such a character. -/
theorem toPascalCase_head (rand : Nat) {s : String}
    (h : ∃ c ∈ s.data, isAsciiAlnum c = true) :
    ∃ c cs, (toPascalCase rand (some s)).data = jsToUpperChar c :: cs ∧
      isAsciiAlnum c = true := by
  have hs : s ≠ "" := by
    rintro rfl
    rcases h with ⟨c, hc, -⟩
    simp at hc
  simp only [toPascalCase]
  rw [if_neg hs]
  exact pascal_flatten_head false s.data h

/-- A non-empty input with no alphanumeric character at all normalizes to
the empty identifier. -/
theorem toPascalCase_empty_of_no_alnum {rand : Nat} {s : String} (hs : s ≠ "")
    (h : ∀ c ∈ s.data, isAsciiAlnum c = false) :
    toPascalCase rand (some s) = "" := by
  have hnil : (toPascalCase rand (some s)).data = [] := by
    rw [List.eq_nil_iff_forall_not_mem]
    intro c hc
    simp only [toPascalCase] at hc
    rw [if_neg hs] at hc
    rcases mem_pascal_flatten hc with ⟨d, hdl, hda, -⟩
    rw [h d hdl] at hda
    exact Bool.false_ne_true hda
  have := congrArg String.mk hnil
  simpa using this

theorem componentFallback_ne_empty (r : Nat) :
    ("Component" ++ toString (r % 1000) : String) ≠ "" := by
  intro h
  have h2 := congrArg String.data h
  simp at h2

/-! ## Claim C8 -/

/-- C8 counterexample: on the non-empty input "9x", which contains
alphanumeric characters, `toPascalCase` returns "9x", whose first
character is the digit '9' and not an uppercase letter — refuting "the
output starts with an uppercase letter whenever the input contained at
least one alphanumeric character". -/
theorem toPascalCase_digit_start_counterexample :
    toPascalCase 0 (some "9x") = "9x" ∧
    (toPascalCase 0 (some "9x")).data.head? = some '9' ∧
    isAsciiUpper '9' = false ∧
    '9' ∈ "9x".data ∧ isAsciiAlnum '9' = true := by
  decide

/-- C8 (amended): for every non-empty string input the Normalizer's output
contains only ASCII letters and digits; whenever the input contains at
least one alphanumeric character the output is non-empty and starts with
an uppercase letter or a digit; the valid path is deterministic (it does
not consult the randomness source); for invalid input (non-string or
empty string) the result is the non-empty fallback "Component" followed
by a random integer below 1000. -/
theorem toPascalCase_normalizer_spec :
    (∀ (rand : Nat) (s : String), s ≠ "" →
      ∀ c ∈ (toPascalCase rand (some s)).data, isAsciiAlnum c = true) ∧
    (∀ (rand : Nat) (s : String), (∃ c ∈ s.data, isAsciiAlnum c = true) →
      ∃ c cs, (toPascalCase rand (some s)).data = c :: cs ∧
        (isAsciiUpper c = true ∨ isAsciiDigit c = true)) ∧
    (∀ (r r2 : Nat) (s : String), s ≠ "" →
      toPascalCase r (some s) = toPascalCase r2 (some s)) ∧
    (∀ rand : Nat,
      toPascalCase rand none = "Component" ++ toString (rand % 1000) ∧
      toPascalCase rand (some "") = "Component" ++ toString (rand % 1000) ∧
      toPascalCase rand none ≠ "" ∧ rand % 1000 < 1000) := by
  refine ⟨?_, ?_, ?_, ?_⟩
  · intro rand s hs
    exact toPascalCase_chars hs
  · intro rand s h
    rcases toPascalCase_head rand h with ⟨c, cs, heq, hca⟩
    exact ⟨jsToUpperChar c, cs, heq, jsToUpperChar_upper_or_digit hca⟩
  · intro r r2 s hs
    simp [toPascalCase, hs]
  · intro rand
    refine ⟨rfl, by simp [toPascalCase], ?_, Nat.mod_lt _ (by norm_num)⟩
    simpa [toPascalCase] using componentFallback_ne_empty rand

/-- C8 witness: the amended theorem applied at concrete inputs. -/
theorem toPascalCase_normalizer_spec_witness :
    isAsciiAlnum 'L' = true ∧
    toPascalCase 3 (some "login page") = toPascalCase 99 (some "login page") := by
  refine ⟨?_, ?_⟩
  · exact toPascalCase_normalizer_spec.1 3 "login page" (by decide) 'L' (by decide)
  · exact toPascalCase_normalizer_spec.2.2.1 3 99 "login page" (by decide)

/-! ## Claim C9 -/

/-- C9 counterexample: a PLAN page name "!!!" (a non-empty string of
punctuation only) normalizes to the empty string, so after normalization
the plan contains an empty identifier — refuting "every identifier is a
non-empty string". -/
theorem normalizePlan_empty_identifier_counterexample :
    (normalizePlan 0 { pages := [some "!!!"], reusable_components := [] }).pages = [""] ∧
    ("" : String).data.length = 0 := by
  decide

/-- C9 (amended): normalization maps both identifier lists elementwise
(duplicates after normalization are kept, nothing is deduplicated); every
identifier whose original value was a non-string, the empty string, or
contained at least one alphanumeric character is non-empty after
normalization; but an original name consisting solely of
non-alphanumeric characters normalizes to the empty string. -/
theorem normalizePlan_identifiers_spec :
    (∀ (rand : Nat) (raw : RawPlan),
      (normalizePlan rand raw).pages = raw.pages.map (toPascalCase rand) ∧
      (normalizePlan rand raw).reusable_components
        = raw.reusable_components.map (toPascalCase rand)) ∧
    (∀ (rand : Nat) (name : Option String),
      (name = none ∨ name = some "" ∨ ∃ c ∈ (name.getD "").data, isAsciiAlnum c = true) →
      toPascalCase rand name ≠ "") ∧
    (∀ (rand : Nat) (s : String), s ≠ "" → (∀ c ∈ s.data, isAsciiAlnum c = false) →
      toPascalCase rand (some s) = "") := by
  refine ⟨fun rand raw => ⟨rfl, rfl⟩, ?_, ?_⟩
  · intro rand name h
    rcases h with rfl | rfl | h
    · simpa [toPascalCase] using componentFallback_ne_empty rand
    · simpa [toPascalCase] using componentFallback_ne_empty rand
    · cases name with
      | none => simp at h
      | some s =>
        rcases @toPascalCase_head rand s (by simpa using h) with ⟨c, cs, heq, -⟩
        intro habs
        have h2 := congrArg String.data habs
        rw [heq] at h2
        simp at h2
  · intro rand s hs h
    exact toPascalCase_empty_of_no_alnum hs h

/-- C9 witness: the amended theorem applied at concrete inputs. -/
theorem normalizePlan_identifiers_spec_witness :
    toPascalCase 5 (some "nav bar") ≠ "" ∧ toPascalCase 5 (some "- -") = "" := by
  refine ⟨?_, ?_⟩
  · exact normalizePlan_identifiers_spec.2.1 5 (some "nav bar")
      (Or.inr (Or.inr (by decide)))
  · exact normalizePlan_identifiers_spec.2.2 5 "- -" (by decide) (by decide)

/-! ## Markdown fence stripping (src/index.js lines 112-114 and 136) -/

/-- The backquote character, code point 96. -/
def backquoteChar : Char := Char.ofNat 96

/-- Is `needle` a prefix of the second list? (JS `String.prototype.includes`
machinery and regex literal matching.) -/
def startsWithChars : List Char → List Char → Bool
  | [], _ => true
  | _ :: _, [] => false
  | p :: ps, c :: cs => p = c && startsWithChars ps cs

/-- JS `String.prototype.includes` on character lists. -/
def containsChars (needle : List Char) : List Char → Bool
  | [] => needle.isEmpty
  | c :: cs => startsWithChars needle (c :: cs) || containsChars needle cs

/-- The optional language tag of the fence regex
`(json|javascript|jsx|kotlin|swift|markdown)?`, tried in the regex's
alternation order right after a matched triple-backquote fence. -/
def dropFenceLang (l : List Char) : List Char :=
  if startsWithChars "json".data l then l.drop 4
  else if startsWithChars "javascript".data l then l.drop 10
  else if startsWithChars "jsx".data l then l.drop 3
  else if startsWithChars "kotlin".data l then l.drop 6
  else if startsWithChars "swift".data l then l.drop 5
  else if startsWithChars "markdown".data l then l.drop 8
  else l

/-- The optional language tag of the narrower pattern used by
`parseJsonWithCorrection` (only `json`). -/
def dropJsonLang (l : List Char) : List Char :=
  if startsWithChars "json".data l then l.drop 4 else l

/-- One global-replace pass deleting every triple-backquote fence (plus the
language tag selected by `dropLang`). The fuel argument is an upper bound
on the number of scanning steps; `replaceFences` supplies the list length,
which always suffices since every step consumes at least one character. -/
def replaceFencesAux (dropLang : List Char → List Char) : Nat → List Char → List Char
  | 0, l => l
  | _ + 1, [] => []
  | fuel + 1, c :: cs =>
    if c = backquoteChar then
      match cs with
      | d :: e :: rest =>
        if d = backquoteChar && e = backquoteChar then
          replaceFencesAux dropLang fuel (dropLang rest)
        else c :: replaceFencesAux dropLang fuel cs
      | _ => c :: replaceFencesAux dropLang fuel cs
    else c :: replaceFencesAux dropLang fuel cs

def replaceFences (dropLang : List Char → List Char) (l : List Char) : List Char :=
  replaceFencesAux dropLang l.length l

/-- The whitespace class trimmed by JS `String.prototype.trim` (the
ASCII members; the exotic Unicode space characters never appear in the
texts this system handles). -/
def isJsSpace (c : Char) : Bool :=
  c = ' ' || c = '\t' || c = '\n' || c = '\r' || c = '\x0b' || c = '\x0c'

/-- JS `String.prototype.trim`: drop whitespace from both ends. -/
def jsTrim (l : List Char) : List Char :=
  ((l.dropWhile isJsSpace).reverse.dropWhile isJsSpace).reverse

/-- Line 113 of src/index.js: strip markdown fences from a free-text
response, then trim. -/
def stripFreeText (s : String) : String :=
  String.mk (jsTrim (replaceFences (fun l => l) (replaceFences dropFenceLang s.data)))

/-- Line 136 of src/index.js: the cleaning applied before every
`JSON.parse` attempt. -/
def cleanJsonString (s : String) : String :=
  String.mk (jsTrim (replaceFences (fun l => l) (replaceFences dropJsonLang s.data)))

/-! ## The Resilient Invocation Layer (`callGenerativeAI`, lines 93-127) -/

/-- A JS exception thrown by the generative SDK: an optional numeric
`status` and an optional `message`. -/
structure JsError where
  status : Option Nat
  message : Option String
deriving DecidableEq, Repr

/-- Line 119 of src/index.js:
`error.status === 429 || (error.message && error.message.includes('429'))`. -/
def isRateLimitError (e : JsError) : Bool :=
  e.status = some 429 ||
    (match e.message with
     | some m => containsChars "429".data m.data
     | none => false)

/-- How one logical `callGenerativeAI` invocation can fail: the
"All API keys and models have failed..." exhaustion error of line 96, or
a non-rate-limit error re-thrown verbatim at line 125. -/
inductive CallError where
  | allFailed
  | rethrown (e : JsError)
deriving DecidableEq, Repr

instance exceptDecEq {ε α : Type} [DecidableEq ε] [DecidableEq α] :
    DecidableEq (Except ε α) := fun x y =>
  match x, y with
  | .ok a, .ok b =>
    if h : a = b then isTrue (by rw [h]) else isFalse (by simp [h])
  | .ok _, .error _ => isFalse (fun hc => Except.noConfusion hc)
  | .error _, .ok _ => isFalse (fun hc => Except.noConfusion hc)
  | .error a, .error b =>
    if h : a = b then isTrue (by rw [h]) else isFalse (by simp [h])

/-- The exhaustion message thrown at line 96 of src/index.js. -/
def allFailedMessage : String :=
  "All API keys and models have failed. Please check your quotas and API key validity."

/-- The recursion of `callGenerativeAI` (lines 93-127). `backend attempt`
is the outcome of the attempt-numbered call to the external service (the
2-second backoff is a pure delay and has no functional effect). The fuel
is an upper bound on the recursion depth; `callGenerativeAI` supplies
`maxAttempts + 1`, which suffices because `attempt` starts at 1 and
increases by 1 until the `attempt > maxAttempts` guard fires. -/
def callGenerativeAIAux (maxAttempts : Nat) (backend : Nat → Except JsError String)
    (isJsonResponse : Bool) : Nat → Nat → Except CallError String
  | 0, _ => .error .allFailed
  | fuel + 1, attempt =>
    if attempt > maxAttempts then .error .allFailed
    else
      match backend attempt with
      | .ok text => .ok (if isJsonResponse then text else stripFreeText text)
      | .error e =>
        if isRateLimitError e then
          callGenerativeAIAux maxAttempts backend isJsonResponse fuel (attempt + 1)
        else .error (.rethrown e)

/-- `callGenerativeAI(prompt, images, isJsonResponse)` with the default
`attempt = 1`; `maxAttempts = clients.length * models.length` (line 94). -/
def callGenerativeAI (numClients numModels : Nat) (backend : Nat → Except JsError String)
    (isJsonResponse : Bool) : Except CallError String :=
  callGenerativeAIAux (numClients * numModels) backend isJsonResponse
    (numClients * numModels + 1) 1

/-! ## Lemmas about the invocation layer -/

theorem callAux_exhaust {m : Nat} {backend : Nat → Except JsError String} {j : Bool}
    {fuel a : Nat} (h : a > m) :
    callGenerativeAIAux m backend j (fuel + 1) a = .error .allFailed := by
  simp [callGenerativeAIAux, h]

theorem callAux_ok {m : Nat} {backend : Nat → Except JsError String} {j : Bool}
    {fuel a : Nat} {t : String} (h : a ≤ m) (hok : backend a = .ok t) :
    callGenerativeAIAux m backend j (fuel + 1) a
      = .ok (if j then t else stripFreeText t) := by
  simp [callGenerativeAIAux, show ¬a > m by omega, hok]

theorem callAux_rl {m : Nat} {backend : Nat → Except JsError String} {j : Bool}
    {fuel a : Nat} {e : JsError} (h : a ≤ m) (he : backend a = .error e)
    (hrl : isRateLimitError e = true) :
    callGenerativeAIAux m backend j (fuel + 1) a
      = callGenerativeAIAux m backend j fuel (a + 1) := by
  simp [callGenerativeAIAux, show ¬a > m by omega, he, hrl]

theorem callAux_nonrl {m : Nat} {backend : Nat → Except JsError String} {j : Bool}
    {fuel a : Nat} {e : JsError} (h : a ≤ m) (he : backend a = .error e)
    (hrl : isRateLimitError e = false) :
    callGenerativeAIAux m backend j (fuel + 1) a = .error (.rethrown e) := by
  simp [callGenerativeAIAux, show ¬a > m by omega, he, hrl]

theorem callAux_reach {m : Nat} {backend : Nat → Except JsError String} {j : Bool} :
    ∀ (d a : Nat), a + d ≤ m + 1 →
    (∀ i, a ≤ i → i < a + d → ∃ e, backend i = .error e ∧ isRateLimitError e = true) →
    callGenerativeAIAux m backend j (m + 2 - a) a
      = callGenerativeAIAux m backend j (m + 2 - (a + d)) (a + d) := by
  intro d
  induction d with
  | zero => intro a _ _; rfl
  | succ d ih =>
    intro a h1 h2
    obtain ⟨e, he, hrl⟩ := h2 a (le_refl a) (by omega)
    have ha : a ≤ m := by omega
    have hfuel : m + 2 - a = (m + 1 - a) + 1 := by omega
    rw [hfuel, callAux_rl ha he hrl]
    have hfuel2 : m + 1 - a = m + 2 - (a + 1) := by omega
    rw [hfuel2, ih (a + 1) (by omega) (fun i hi1 hi2 => h2 i (by omega) (by omega))]
    have harg : a + 1 + d = a + (d + 1) := by omega
    rw [harg]

/-! ## Claim C3 -/

/-- C3 counterexample: with the source's 3 credentials and 3 models and a
backend that always fails with a non-rate-limit error (HTTP 500),
`callGenerativeAI` does not retry at all: it re-throws after the first
attempt — even if attempt 2 would have succeeded — and never reaches the
`AllEndpointsExhausted` error. This refutes "retries with the next
candidate on every kind of failure" and "performs exactly C×M attempts
before failing with AllEndpointsExhausted". -/
theorem callGenerativeAI_no_general_retry_counterexample :
    callGenerativeAI 3 3 (fun _ => .error { status := some 500, message := some "boom" }) false
      = .error (.rethrown { status := some 500, message := some "boom" }) ∧
    callGenerativeAI 3 3
        (fun k => if k = 1 then .error { status := some 500, message := some "boom" }
                  else .ok "ok") false
      = .error (.rethrown { status := some 500, message := some "boom" }) ∧
    callGenerativeAI 3 3 (fun _ => .error { status := some 500, message := some "boom" }) false
      ≠ .error .allFailed := by
  decide

/-- C3 (amended): `callGenerativeAI` retries with the next candidate only
on rate-limit failures (status 429 or a message containing '429').
After k-1 rate-limited attempts, a success at attempt k ≤ C*M returns
that response; if every attempt up to C*M rate-limits it fails with the
exhaustion error after exactly C*M attempts; a non-rate-limit failure at
attempt k is re-thrown immediately, regardless of what later attempts
would have returned. -/
theorem callGenerativeAI_retry_spec :
    (∀ (C M : Nat) (backend : Nat → Except JsError String) (j : Bool) (k : Nat) (t : String),
      1 ≤ k → k ≤ C * M →
      (∀ i, 1 ≤ i → i < k → ∃ e, backend i = .error e ∧ isRateLimitError e = true) →
      backend k = .ok t →
      callGenerativeAI C M backend j = .ok (if j then t else stripFreeText t)) ∧
    (∀ (C M : Nat) (backend : Nat → Except JsError String) (j : Bool),
      (∀ i, 1 ≤ i → i ≤ C * M → ∃ e, backend i = .error e ∧ isRateLimitError e = true) →
      callGenerativeAI C M backend j = .error .allFailed) ∧
    (∀ (C M : Nat) (backend : Nat → Except JsError String) (j : Bool) (k : Nat) (e : JsError),
      1 ≤ k → k ≤ C * M →
      (∀ i, 1 ≤ i → i < k → ∃ e2, backend i = .error e2 ∧ isRateLimitError e2 = true) →
      backend k = .error e → isRateLimitError e = false →
      callGenerativeAI C M backend j = .error (.rethrown e)) := by
  refine ⟨?_, ?_, ?_⟩
  · intro C M backend j k t hk1 hkm hrl hok
    unfold callGenerativeAI
    have h1 : C * M + 1 = C * M + 2 - 1 := by omega
    rw [h1, callAux_reach (k - 1) 1 (by omega)
      (fun i hi1 hi2 => hrl i hi1 (by omega))]
    have h2 : 1 + (k - 1) = k := by omega
    rw [h2]
    have h3 : C * M + 2 - k = (C * M + 1 - k) + 1 := by omega
    rw [h3]
    exact callAux_ok hkm hok
  · intro C M backend j hrl
    unfold callGenerativeAI
    have h1 : C * M + 1 = C * M + 2 - 1 := by omega
    rw [h1, callAux_reach (C * M) 1 (by omega)
      (fun i hi1 hi2 => hrl i hi1 (by omega))]
    have h2 : C * M + 2 - (1 + C * M) = 0 + 1 := by omega
    rw [h2]
    exact callAux_exhaust (by omega)
  · intro C M backend j k e hk1 hkm hrl he hnon
    unfold callGenerativeAI
    have h1 : C * M + 1 = C * M + 2 - 1 := by omega
    rw [h1, callAux_reach (k - 1) 1 (by omega)
      (fun i hi1 hi2 => hrl i hi1 (by omega))]
    have h2 : 1 + (k - 1) = k := by omega
    rw [h2]
    have h3 : C * M + 2 - k = (C * M + 1 - k) + 1 := by omega
    rw [h3]
    exact callAux_nonrl hkm he hnon

/-- C3 witness: the amended theorem applied at concrete inputs. -/
theorem callGenerativeAI_retry_spec_witness :
    callGenerativeAI 1 2
        (fun k => if k = 1 then .error { status := some 429, message := none }
                  else .ok "hi") true
      = .ok "hi" ∧
    callGenerativeAI 1 1
        (fun _ => .error { status := none, message := some "HTTP 429" }) true
      = .error .allFailed := by
  constructor
  · have h := callGenerativeAI_retry_spec.1 1 2
      (fun k => if k = 1 then .error { status := some 429, message := none } else .ok "hi")
      true 2 "hi" (by norm_num) (by norm_num)
      (fun i h1 h2 => by
        have hi : i = 1 := by omega
        subst hi
        exact ⟨{ status := some 429, message := none }, rfl, by decide⟩)
      (by decide)
    simpa using h
  · exact callGenerativeAI_retry_spec.2.1 1 1
      (fun _ => .error { status := none, message := some "HTTP 429" }) true
      (fun i h1 h2 => ⟨{ status := none, message := some "HTTP 429" }, rfl, by decide⟩)

/-! ## The Structured Response Repair Loop (`parseJsonWithCorrection`,
src/index.js lines 129-149) -/

/-- How `parseJsonWithCorrection` can fail: the fixed Error thrown at
line 143 after exhausting the attempts; a correction invocation itself
throwing (propagated from `callGenerativeAI` at line 146); or the
(unreachable) normal loop exit, which in JS would return `undefined`. -/
inductive RepairError where
  | parseFailed (message : String)
  | correctionFailed (e : CallError)
  | loopExit
deriving DecidableEq, Repr

/-- The message of the Error thrown at line 143 of src/index.js. -/
def parseFailedMessage : String := "Failed to parse JSON after multiple attempts."

/-- The `while (attempts < maxAttempts)` loop of lines 134-148 with
`maxAttempts = 3`. `parse` abstracts `JSON.parse` (after the fence
cleaning of line 136, which is applied here), `correct k` is the outcome
of the k-th correction re-invocation of `callGenerativeAI` (line 146).
The fuel bounds the loop iterations; `parseJsonWithCorrection` passes 3,
which suffices since `attempts` grows by 1 per iteration. -/
def parseJsonWithCorrectionAux {α : Type} (parse : String → Option α)
    (correct : Nat → Except CallError String) : Nat → Nat → String → Except RepairError α
  | 0, _, _ => .error .loopExit
  | fuel + 1, attempts, jsonString =>
    if attempts < 3 then
      match parse (cleanJsonString jsonString) with
      | some v => .ok v
      | none =>
        if attempts + 1 ≥ 3 then .error (.parseFailed parseFailedMessage)
        else
          match correct (attempts + 1) with
          | .ok s2 => parseJsonWithCorrectionAux parse correct fuel (attempts + 1) s2
          | .error e => .error (.correctionFailed e)
    else .error .loopExit

/-- `parseJsonWithCorrection(jsonString, prompt, images)`; the prompt and
images only feed the correction re-invocations, which the `correct`
oracle abstracts. -/
def parseJsonWithCorrection {α : Type} (parse : String → Option α)
    (correct : Nat → Except CallError String) (jsonString : String) :
    Except RepairError α :=
  parseJsonWithCorrectionAux parse correct 3 0 jsonString

/-! ## Claim C4 -/

/-- C4 counterexample: when no attempt parses, the loop throws the fixed
message "Failed to parse JSON after multiple attempts.", which contains
neither the stage name nor the last raw response ("zzz" here); indeed the
error value is identical for entirely different inputs and correction
texts — refuting "failing with a MalformedOutput error carrying the stage
name and the last raw response". -/
theorem parseJsonWithCorrection_fixed_error_counterexample :
    parseJsonWithCorrection (fun _ => (none : Option Unit)) (fun _ => .ok "zzz") "yyy"
      = .error (.parseFailed parseFailedMessage) ∧
    containsChars "zzz".data parseFailedMessage.data = false ∧
    parseJsonWithCorrection (fun _ => (none : Option Unit)) (fun _ => .ok "zzz") "yyy"
      = parseJsonWithCorrection (fun _ => (none : Option Unit)) (fun _ => .ok "www") "other" := by
  decide

/-- C4 (amended): the Repair Loop makes at most 3 parse attempts — a text
parsing (after fence cleaning) on attempt k ≤ 3 is returned after exactly
k-1 correction re-invocations, corrections beyond the second are never
consulted, and if all 3 attempts fail to parse the loop terminates with
the fixed error message "Failed to parse JSON after multiple attempts.",
which carries neither the stage name nor the last raw response. -/
theorem parseJsonWithCorrection_spec :
    (∀ (α : Type) (parse : String → Option α) (correct : Nat → Except CallError String)
      (s : String) (v : α),
      parse (cleanJsonString s) = some v →
      parseJsonWithCorrection parse correct s = .ok v) ∧
    (∀ (α : Type) (parse : String → Option α) (correct : Nat → Except CallError String)
      (s s1 : String) (v : α),
      parse (cleanJsonString s) = none → correct 1 = .ok s1 →
      parse (cleanJsonString s1) = some v →
      parseJsonWithCorrection parse correct s = .ok v) ∧
    (∀ (α : Type) (parse : String → Option α) (correct : Nat → Except CallError String)
      (s s1 s2 : String) (v : α),
      parse (cleanJsonString s) = none → correct 1 = .ok s1 →
      parse (cleanJsonString s1) = none → correct 2 = .ok s2 →
      parse (cleanJsonString s2) = some v →
      parseJsonWithCorrection parse correct s = .ok v) ∧
    (∀ (α : Type) (parse : String → Option α) (correct : Nat → Except CallError String)
      (s s1 s2 : String),
      parse (cleanJsonString s) = none → correct 1 = .ok s1 →
      parse (cleanJsonString s1) = none → correct 2 = .ok s2 →
      parse (cleanJsonString s2) = none →
      parseJsonWithCorrection parse correct s = .error (.parseFailed parseFailedMessage)) ∧
    (∀ (α : Type) (parse : String → Option α)
      (correct correct2 : Nat → Except CallError String) (s : String),
      correct 1 = correct2 1 → correct 2 = correct2 2 →
      parseJsonWithCorrection parse correct s = parseJsonWithCorrection parse correct2 s) := by
  refine ⟨?_, ?_, ?_, ?_, ?_⟩
  · intro α parse correct s v h0
    simp [parseJsonWithCorrection, parseJsonWithCorrectionAux, h0]
  · intro α parse correct s s1 v h0 hc1 h1
    simp [parseJsonWithCorrection, parseJsonWithCorrectionAux, h0, hc1, h1]
  · intro α parse correct s s1 s2 v h0 hc1 h1 hc2 h2
    simp [parseJsonWithCorrection, parseJsonWithCorrectionAux, h0, hc1, h1, hc2, h2]
  · intro α parse correct s s1 s2 h0 hc1 h1 hc2 h2
    simp [parseJsonWithCorrection, parseJsonWithCorrectionAux, h0, hc1, h1, hc2, h2]
  · intro α parse correct correct2 s h1 h2
    cases h0 : parse (cleanJsonString s) with
    | some v =>
      simp [parseJsonWithCorrection, parseJsonWithCorrectionAux, h0]
    | none =>
      cases hc1 : correct2 1 with
      | error e =>
        rw [← h1] at hc1
        simp [parseJsonWithCorrection, parseJsonWithCorrectionAux, h0, hc1, h1.symm.trans hc1]
      | ok s1 =>
        have hc1a : correct 1 = .ok s1 := h1.trans hc1
        cases hp1 : parse (cleanJsonString s1) with
        | some v =>
          simp [parseJsonWithCorrection, parseJsonWithCorrectionAux, h0, hc1, hc1a, hp1]
        | none =>
          cases hc2 : correct2 2 with
          | error e =>
            have hc2a : correct 2 = .error e := h2.trans hc2
            simp [parseJsonWithCorrection, parseJsonWithCorrectionAux, h0, hc1, hc1a, hp1,
              hc2, hc2a]
          | ok s2 =>
            have hc2a : correct 2 = .ok s2 := h2.trans hc2
            simp [parseJsonWithCorrection, parseJsonWithCorrectionAux, h0, hc1, hc1a, hp1,
              hc2, hc2a]

/-- C4 witness: the amended theorem applied at concrete inputs. -/
theorem parseJsonWithCorrection_spec_witness :
    parseJsonWithCorrection (fun s => if s = "ok" then some 42 else none)
      (fun k => if k = 1 then .ok "ok" else .ok "junk") "bad" = .ok 42 ∧
    parseJsonWithCorrection (fun _ => (none : Option Nat)) (fun _ => .ok "junk") "bad"
      = .error (.parseFailed parseFailedMessage) := by
  constructor
  · exact parseJsonWithCorrection_spec.2.1 Nat
      (fun s => if s = "ok" then some 42 else none)
      (fun k => if k = 1 then .ok "ok" else .ok "junk") "bad" "ok" 42
      (by decide) (by decide) (by decide)
  · exact parseJsonWithCorrection_spec.2.2.2.1 Nat (fun _ => none) (fun _ => .ok "junk")
      "bad" "junk" "junk" rfl rfl rfl rfl rfl

/-! ## The Access Pool Manager (`getApiClient`, src/index.js lines 48-68) -/

/-- The two module-level rotation cursors of lines 48-49. -/
structure RotationState where
  currentClientIndex : Nat
  currentModelIndex : Nat
deriving DecidableEq, Repr

/-- One call to `getApiClient()` with `numClients` API clients and
`numModels` model names: it selects `clients[currentClientIndex]` and
`models[currentModelIndex]`, then advances the client cursor modulo the
client count and, only when that cursor wraps to 0, advances the model
cursor modulo the model count. The returned pair is the selected
(client index, model index). The zero-clients throw of lines 53-55 is
unreachable under the startup guard of lines 35-42, so the embedding
assumes a non-empty pool (theorems hypothesize `0 < numClients`). -/
def getApiClient (numClients numModels : Nat) (s : RotationState) :
    (Nat × Nat) × RotationState :=
  let client := s.currentClientIndex
  let modelName := s.currentModelIndex
  let nextClient := (s.currentClientIndex + 1) % numClients
  let nextModel :=
    if nextClient = 0 then (s.currentModelIndex + 1) % numModels
    else s.currentModelIndex
  ((client, modelName), ⟨nextClient, nextModel⟩)

/-- The cursor state after n calls, starting from the initial state
`(0, 0)` of lines 48-49. -/
def rotationStateAt (C M : Nat) : Nat → RotationState
  | 0 => ⟨0, 0⟩
  | n + 1 => (getApiClient C M (rotationStateAt C M n)).2

/-- The (client index, model index) pair selected by the (n+1)-th call. -/
def selectionAt (C M n : Nat) : Nat × Nat :=
  (getApiClient C M (rotationStateAt C M n)).1

theorem rotationStateAt_eq (C M : Nat) (hC : 0 < C) (hM : 0 < M) :
    ∀ n, rotationStateAt C M n = ⟨n % C, (n / C) % M⟩ := by
  intro n
  induction n with
  | zero =>
    simp [rotationStateAt, Nat.zero_mod, Nat.zero_div]
  | succ n ih =>
    have hclient : (n % C + 1) % C = (n + 1) % C := Nat.mod_add_mod n C 1
    simp only [rotationStateAt, ih, getApiClient]
    refine congrArg₂ RotationState.mk hclient ?_
    rw [hclient]
    by_cases hz : (n + 1) % C = 0
    · have hdvd : C ∣ (n + 1) := Nat.dvd_of_mod_eq_zero hz
      have hdiv : (n + 1) / C = n / C + 1 := by
        rw [Nat.succ_div, if_pos hdvd]
      rw [if_pos hz, hdiv, Nat.mod_add_mod]
    · have hdvd : ¬ C ∣ (n + 1) := fun h => hz (Nat.mod_eq_zero_of_dvd h)
      have hdiv : (n + 1) / C = n / C := by
        rw [Nat.succ_div, if_neg hdvd, Nat.add_zero]
      rw [if_neg hz, hdiv]

theorem selectionAt_eq (C M : Nat) (hC : 0 < C) (hM : 0 < M) (n : Nat) :
    selectionAt C M n = (n % C, (n / C) % M) := by
  rw [selectionAt, rotationStateAt_eq C M hC hM n]
  rfl

/-- Two offsets inside one window of C consecutive indices with the same
residue are equal. -/
theorem mod_window_inj {C : Nat} (hC : 0 < C) (n : Nat) {k1 k2 : Nat} (h1 : k1 < C) (h2 : k2 < C)
    (h : (n + k1) % C = (n + k2) % C) : k1 = k2 := by
  have hmod : k1 % C = k2 % C := Nat.ModEq.add_left_cancel' n h
  rw [Nat.mod_eq_of_lt h1, Nat.mod_eq_of_lt h2] at hmod
  exact hmod

/-- In any window of C consecutive indices there is exactly one index with
a given residue modulo C. -/
theorem unique_mod_window (C : Nat) (hC : 0 < C) (n c : Nat) (hc : c < C) :
    ∃! k, k < C ∧ (n + k) % C = c := by
  have ha : n % C < C := Nat.mod_lt n hC
  have hdm := Nat.div_add_mod n C
  have hmodval : ∀ k, k = (if n % C ≤ c then c - n % C else c + C - n % C) →
      (n + k) % C = c := by
    intro k hkdef
    rw [hkdef]
    split
    · next hle =>
      have h2 : n + (c - n % C) = C * (n / C) + c := by omega
      rw [h2, Nat.mul_add_mod, Nat.mod_eq_of_lt hc]
    · next hgt =>
      have h2 : n + (c + C - n % C) = C * (n / C) + C + c := by omega
      have h3 : C * (n / C) + C + c = C * (n / C + 1) + c := by ring
      rw [h2, h3, Nat.mul_add_mod, Nat.mod_eq_of_lt hc]
  refine ⟨if n % C ≤ c then c - n % C else c + C - n % C, ⟨?_, hmodval _ rfl⟩, ?_⟩
  · split <;> omega
  · rintro k ⟨hk, hkc⟩
    refine mod_window_inj hC n hk ?_ ?_
    · split <;> omega
    · rw [hkc, hmodval _ rfl]

theorem nextClientIndex_eq (C M : Nat) (hC : 0 < C) (hM : 0 < M) (m : Nat) :
    (getApiClient C M (rotationStateAt C M m)).2.currentClientIndex = (m + 1) % C := by
  rw [rotationStateAt_eq C M hC hM m]
  show (m % C + 1) % C = (m + 1) % C
  exact Nat.mod_add_mod m C 1

/-! ## Claim C7 -/

/-- C7: starting from cursor state (0, 0), over any window of C
consecutive `getApiClient` selections (i) each credential index below C is
selected exactly once, (ii) the client cursor wraps to 0 — the condition
under which the source advances the model cursor — exactly once, and
(iii) the selected model index changes from one selection to the next
only when the wrap occurs, i.e. only when the next selection's credential
cursor is back at 0. -/
theorem getApiClient_rotation_fairness (C M : Nat) (hC : 0 < C) (hM : 0 < M) :
    (∀ n c, c < C → ∃! k, k < C ∧ (selectionAt C M (n + k)).1 = c) ∧
    (∀ n, ∃! k, k < C ∧
      (getApiClient C M (rotationStateAt C M (n + k))).2.currentClientIndex = 0) ∧
    (∀ n, (selectionAt C M (n + 1)).2 ≠ (selectionAt C M n).2 → (n + 1) % C = 0) := by
  refine ⟨?_, ?_, ?_⟩
  · intro n c hc
    obtain ⟨k, ⟨hk, hkc⟩, huniq⟩ := unique_mod_window C hC n c hc
    refine ⟨k, ⟨hk, ?_⟩, ?_⟩
    · rw [selectionAt_eq C M hC hM (n + k)]
      exact hkc
    · rintro k2 ⟨hk2, hkc2⟩
      apply huniq
      rw [selectionAt_eq C M hC hM (n + k2)] at hkc2
      exact ⟨hk2, hkc2⟩
  · intro n
    obtain ⟨k, ⟨hk, hkc⟩, huniq⟩ := unique_mod_window C hC (n + 1) 0 hC
    refine ⟨k, ⟨hk, ?_⟩, ?_⟩
    · rw [nextClientIndex_eq C M hC hM (n + k)]
      rw [show n + k + 1 = n + 1 + k by omega]
      exact hkc
    · rintro k2 ⟨hk2, hkc2⟩
      apply huniq
      rw [nextClientIndex_eq C M hC hM (n + k2),
        show n + k2 + 1 = n + 1 + k2 by omega] at hkc2
      exact ⟨hk2, hkc2⟩
  · intro n hne
    by_contra hz
    apply hne
    rw [selectionAt_eq C M hC hM, selectionAt_eq C M hC hM]
    have hdiv : (n + 1) / C = n / C := by
      rw [Nat.succ_div, if_neg (fun h => hz (Nat.mod_eq_zero_of_dvd h)), Nat.add_zero]
    show (n + 1) / C % M = n / C % M
    rw [hdiv]

/-- C7 witness: the fairness theorem applied with the source's pool of
3 credentials and 3 models. -/
theorem getApiClient_rotation_fairness_witness :
    (∃! k, k < 3 ∧ (selectionAt 3 3 (4 + k)).1 = 2) ∧
    (∃! k, k < 3 ∧
      (getApiClient 3 3 (rotationStateAt 3 3 (7 + k))).2.currentClientIndex = 0) := by
  constructor
  · exact (getApiClient_rotation_fairness 3 3 (by norm_num) (by norm_num)).1 4 2 (by norm_num)
  · exact (getApiClient_rotation_fairness 3 3 (by norm_num) (by norm_num)).2.1 7

/-! ## JS object maps (string-keyed, last write wins, insertion order) -/

/-- JS property assignment `m[k] = v` on an object used as a map: replace
the (unique) existing binding in place, keeping insertion order, or
append a new one. -/
def objSet {α : Type} : List (String × α) → String → α → List (String × α)
  | [], k, v => [(k, v)]
  | p :: ps, k, v => if p.1 = k then (k, v) :: ps else p :: objSet ps k v

/-- JS property read `m[k]`. -/
def objGet {α : Type} (m : List (String × α)) (k : String) : Option α :=
  (m.find? (fun p => p.1 = k)).map Prod.snd

/-! ## Attachments (`bufferToGenerativePart`, src/index.js lines 72-79) -/

/-- An inline-data part `{ inlineData: { data, mimeType } }`. The base64
encoding of the upload buffer is modeled by carrying the buffer string
itself (the encoding is injective and its exact alphabet is irrelevant to
every claim). -/
structure GenPart where
  data : String
  mimeType : String
deriving DecidableEq, Repr

/-- `bufferToGenerativePart(buffer, mimeType)` (lines 72-79). -/
def bufferToGenerativePart (buffer mimeType : String) : GenPart :=
  { data := buffer, mimeType := mimeType }

/-! ## The boilerplate assembler (`getProjectFiles`, src/index.js
lines 153-239) -/

/-- `projectName.toLowerCase().replace(/\s+/g, '-')` (line 157). -/
def jsPackageName (projectName : String) : String :=
  String.mk (collapseRunsAux isJsSpace '-' false (projectName.data.map jsToLowerChar))

/-- The `JSON.stringify(..., null, 2)` output assigned to `package.json`
at lines 156-184. -/
def packageJsonContent (projectName : String) : String :=
  "\x7b\n  \"name\": \"" ++ jsPackageName projectName ++
  "\",\n  \"version\": \"0.1.0\",\n  \"private\": true,\n  \"dependencies\": \x7b\n    \"@testing-library/jest-dom\": \"^5.17.0\",\n    \"@testing-library/react\": \"^13.4.0\",\n    \"@testing-library/user-event\": \"^13.5.0\",\n    \"react\": \"^18.2.0\",\n    \"react-dom\": \"^18.2.0\",\n    \"react-router-dom\": \"^6.22.3\",\n    \"react-scripts\": \"5.0.1\",\n    \"web-vitals\": \"^2.1.4\",\n    \"prop-types\": \"^15.8.1\"\n  \x7d,\n  \"scripts\": \x7b\n    \"start\": \"react-scripts start\",\n    \"build\": \"react-scripts build\",\n    \"test\": \"react-scripts test\",\n    \"eject\": \"react-scripts eject\"\n  \x7d,\n  \"eslintConfig\": \x7b\n    \"extends\": [\n      \"react-app\",\n      \"react-app/jest\"\n    ]\n  \x7d,\n  \"browserslist\": \x7b\n    \"production\": [\n      \">0.2%\",\n      \"not dead\",\n      \"not op_mini all\"\n    ],\n    \"development\": [\n      \"last 1 chrome version\",\n      \"last 1 firefox version\",\n      \"last 1 safari version\"\n    ]\n  \x7d\n\x7d"

/-- The README content of line 186. -/
def readmeContent (projectName : String) : String :=
  "# " ++ projectName ++
  "\n\nThis project was generated by VM Digital Studio using a standard React setup.\n\n## Available Scripts\n\n### \x60npm start\x60\nRuns the app in development mode.\n\n### \x60npm test\x60\nLaunches the test runner.\n\n### \x60npm run build\x60\nBuilds the app for production."

/-- The `public/index.html` content of lines 188-205. -/
def indexHtmlContent (projectName : String) : String :=
  "<!DOCTYPE html>\n<html lang=\"en\">\n  <head>\n    <meta charset=\"utf-8\" />\n    <link rel=\"icon\" href=\"%PUBLIC_URL%/favicon.ico\" />\n    <meta name=\"viewport\" content=\"width=device-width, initial-scale=1\" />\n    <meta name=\"theme-color\" content=\"#000000\" />\n    <meta\n      name=\"description\"\n      content=\"Web site created using create-react-app\"\n    />\n    <title>" ++
  projectName ++
  "</title>\n  </head>\n  <body>\n    <noscript>You need to enable JavaScript to run this app.</noscript>\n    <div id=\"root\"></div>\n  </body>\n</html>"

/-- The `src/index.js` bootstrap content of lines 209-222. -/
def srcIndexJsContent : String :=
  "import React from \x27react\x27;\nimport ReactDOM from \x27react-dom/client\x27;\nimport \x27./index.css\x27;\nimport App from \x27./App\x27;\nimport \x7b BrowserRouter \x7d from \x27react-router-dom\x27;\n\nconst root = ReactDOM.createRoot(document.getElementById(\x27root\x27));\nroot.render(\n  <React.StrictMode>\n    <BrowserRouter>\n      <App />\n    </BrowserRouter>\n  </React.StrictMode>\n);"

/-- The `src/index.css` content of lines 224-236. -/
def srcIndexCssContent : String :=
  "body \x7b\n  margin: 0;\n  font-family: -apple-system, BlinkMacSystemFont, \x27Segoe UI\x27, \x27Roboto\x27, \x27Oxygen\x27,\n    \x27Ubuntu\x27, \x27Cantarell\x27, \x27Fira Sans\x27, \x27Droid Sans\x27, \x27Helvetica Neue\x27,\n    sans-serif;\n  -webkit-font-smoothing: antialiased;\n  -moz-osx-font-smoothing: grayscale;\n\x7d\n\ncode \x7b\n  font-family: source-code-pro, Menlo, Monaco, Consolas, \x27Courier New\x27,\n    monospace;\n\x7d"

/-- `getProjectFiles(projectName, generatedFiles)` (lines 153-239): copy
the generated artifacts and add the six static scaffold files, in the
source's assignment order. -/
def getProjectFiles (projectName : String) (generatedFiles : List (String × String)) :
    List (String × String) :=
  let a1 := objSet generatedFiles "package.json" (packageJsonContent projectName)
  let a2 := objSet a1 "README.md" (readmeContent projectName)
  let a3 := objSet a2 "public/index.html" (indexHtmlContent projectName)
  let a4 := objSet a3 "public/favicon.ico" ""
  let a5 := objSet a4 "src/index.js" srcIndexJsContent
  objSet a5 "src/index.css" srcIndexCssContent

/-! ## The `/api/generate-code` pipeline (src/index.js lines 305-384) -/

/-- Which source call site of `callGenerativeAI` a logical invocation
belongs to (bookkeeping of the embedding, used by the trace). -/
inductive Stage where
  | plan
  | components
  | pages (i : Nat)
  | entry
  | review
deriving DecidableEq, Repr

/-- One logical `callGenerativeAI` invocation issued by the pipeline:
its sequential index (feeding the oracle), its call site, the attachment
list passed (a `none` entry models the JS value `undefined`, as produced
by an out-of-bounds `imageParts[i]`), and the `isJsonResponse` flag. -/
structure CallRec where
  idx : Nat
  stage : Stage
  images : List (Option GenPart)
  isJson : Bool
deriving DecidableEq, Repr

/-- The HTTP responses the handler can produce: `res.json({generatedFiles,
accuracyResult})` on success, `res.status(400)` for missing screens, and
the generic `res.status(500)` of the catch block. -/
inductive Response where
  | ok (generatedFiles : List (String × String)) (accuracyResult : String)
  | badRequest (error : String)
  | serverError (error : String)
deriving DecidableEq, Repr

/-- The artifact map of a response: only the success response carries
one; the 400/500 responses consist of an error message alone. -/
def responseFiles : Response → Option (List (String × String))
  | .ok files _ => some files
  | .badRequest _ => none
  | .serverError _ => none

/-- The message of the 400 response at line 312. -/
def noScreensMessage : String := "No screen images provided."

/-- The generic message of the 500 response at line 382. -/
def serverErrorMessage : String := "An error occurred on the server during code generation."

/-- Line 315: `screenFiles.map(file => bufferToGenerativePart(...))`. -/
def imagePartsOf (screenFiles : List (String × String)) : List GenPart :=
  screenFiles.map (fun f => bufferToGenerativePart f.1 f.2)

/-- The record of the PLAN (Architect) invocation of line 321. -/
def planRecOf (screenFiles : List (String × String)) : CallRec :=
  ⟨0, .plan, (imagePartsOf screenFiles).map some, false⟩

/-- The record of the COMPONENTS (Component Builder) invocation of
line 336. -/
def compRecOf (screenFiles : List (String × String)) : CallRec :=
  ⟨1, .components, (imagePartsOf screenFiles).map some, false⟩

/-- Lines 339-344: write each parsed component into
`src/components/<name>.jsx`, in object-key insertion order, starting from
the empty `generatedFiles` of line 316. -/
def componentFiles (componentsCode : List (String × String)) : List (String × String) :=
  componentsCode.foldl (fun fs p => objSet fs ("src/components/" ++ p.1 ++ ".jsx") p.2) []

/-- The Page Composer loop of lines 349-360: one invocation per page,
page i scoped to the single attachment `[imageParts[i]]` (which is
`undefined` when i is out of bounds). Returns the updated artifact map
and next call index on success, `none` if an invocation threw, plus the
records of the invocations issued. `oracle k` is the outcome of the
k-th logical `callGenerativeAI` invocation of the whole run. -/
def pagesLoop (oracle : Nat → Except CallError String) (imageParts : List GenPart) :
    List String → Nat → Nat → List (String × String) →
    (Option (List (String × String) × Nat)) × List CallRec
  | [], _, callIdx, files => (some (files, callIdx), [])
  | pageName :: rest, i, callIdx, files =>
    let rc : CallRec := ⟨callIdx, .pages i, [imageParts[i]?], false⟩
    match oracle callIdx with
    | .error _ => (none, [rc])
    | .ok pageCode =>
      let result := pagesLoop oracle imageParts rest (i + 1) (callIdx + 1)
        (objSet files ("src/pages/" ++ pageName ++ ".jsx") pageCode)
      (result.1, rc :: result.2)

/-- Steps 3-5 and the final response of lines 347-383: the PAGES loop,
the ENTRY (Finisher) invocation whose result is stored at `src/App.js`,
the REVIEW (QA) invocation with `[imageParts[0]]` and a JSON response
shape whose raw text is sent back verbatim as `accuracyResult`, and the
boilerplate merge. Any thrown error lands in the catch block (500). -/
def runPagesEntryReview (oracle : Nat → Except CallError String) (imageParts : List GenPart)
    (pages : List String) (projectName : String) (startIdx : Nat)
    (files0 : List (String × String)) (trace0 : List CallRec) :
    Response × List CallRec :=
  match pagesLoop oracle imageParts pages 0 startIdx files0 with
  | (none, recs) => (.serverError serverErrorMessage, trace0 ++ recs)
  | (some (files1, k), recs) =>
    let entryRec : CallRec := ⟨k, .entry, [], false⟩
    match oracle k with
    | .error _ => (.serverError serverErrorMessage, trace0 ++ recs ++ [entryRec])
    | .ok appRouterCode =>
      let files2 := objSet files1 "src/App.js" appRouterCode
      let reviewRec : CallRec := ⟨k + 1, .review, [imageParts[0]?], true⟩
      match oracle (k + 1) with
      | .error _ => (.serverError serverErrorMessage, trace0 ++ recs ++ [entryRec, reviewRec])
      | .ok accuracyResultJson =>
        (.ok (getProjectFiles projectName files2) accuracyResultJson,
         trace0 ++ recs ++ [entryRec, reviewRec])

/-- The `/api/generate-code` handler (lines 305-384). `oracle k` is the
outcome of the k-th logical `callGenerativeAI` invocation issued directly
by the handler (post fence-stripping for free-text shapes); `parsePlan` /
`parseComponents` abstract `JSON.parse` against the two expected shapes;
`correctPlan` / `correctComponents` are the correction-call oracles of the
two `parseJsonWithCorrection` sites; `rand` injects `Math.random`;
`screenFiles` is the uploaded (buffer, mimetype) list. Returns the HTTP
response and the trace of invocations issued. -/
def generateCode (oracle : Nat → Except CallError String)
    (parsePlan : String → Option RawPlan) (correctPlan : Nat → Except CallError String)
    (parseComponents : String → Option (List (String × String)))
    (correctComponents : Nat → Except CallError String)
    (rand : Nat) (projectName : String) (screenFiles : List (String × String)) :
    Response × List CallRec :=
  if screenFiles.length = 0 then
    (.badRequest noScreensMessage, [])
  else
    match oracle 0 with
    | .error _ => (.serverError serverErrorMessage, [planRecOf screenFiles])
    | .ok planJson =>
      match parseJsonWithCorrection parsePlan correctPlan planJson with
      | .error _ => (.serverError serverErrorMessage, [planRecOf screenFiles])
      | .ok rawPlan =>
        let plan := normalizePlan rand rawPlan
        if plan.reusable_components.length > 0 then
          match oracle 1 with
          | .error _ =>
            (.serverError serverErrorMessage, [planRecOf screenFiles, compRecOf screenFiles])
          | .ok componentsJson =>
            match parseJsonWithCorrection parseComponents correctComponents componentsJson with
            | .error _ =>
              (.serverError serverErrorMessage, [planRecOf screenFiles, compRecOf screenFiles])
            | .ok componentsCode =>
              runPagesEntryReview oracle (imagePartsOf screenFiles) plan.pages projectName 2
                (componentFiles componentsCode) [planRecOf screenFiles, compRecOf screenFiles]
        else
          runPagesEntryReview oracle (imagePartsOf screenFiles) plan.pages projectName 1 []
            [planRecOf screenFiles]

/-! ## Lemmas about the artifact map -/

theorem objGet_objSet_self {α : Type} (m : List (String × α)) (k : String) (v : α) :
    objGet (objSet m k v) k = some v := by
  induction m with
  | nil => simp [objSet, objGet]
  | cons p ps ih =>
    by_cases hp : p.1 = k
    · simp [objSet, objGet, hp]
    · simp only [objSet, if_neg hp]
      simpa [objGet, hp] using ih

theorem objGet_objSet_ne {α : Type} (m : List (String × α)) {k k2 : String} (v : α)
    (h : k ≠ k2) : objGet (objSet m k2 v) k = objGet m k := by
  have h21 : ¬ (k2 = k) := fun hc => h hc.symm
  induction m with
  | nil => simp [objSet, objGet, h21]
  | cons p ps ih =>
    by_cases hp : p.1 = k2
    · have hpk : ¬ (p.1 = k) := fun hc => h (hc.symm.trans hp)
      simp [objSet, objGet, hp, h21, hpk]
    · simp only [objSet, if_neg hp]
      by_cases hk : p.1 = k
      · simp [objGet, hk]
      · simpa [objGet, hk] using ih

/-- The boilerplate merge never touches the ENTRY artifact path. -/
theorem objGet_getProjectFiles_appjs (projectName : String)
    (fs : List (String × String)) :
    objGet (getProjectFiles projectName fs) "src/App.js" = objGet fs "src/App.js" := by
  unfold getProjectFiles
  rw [objGet_objSet_ne _ _ (by decide), objGet_objSet_ne _ _ (by decide),
    objGet_objSet_ne _ _ (by decide), objGet_objSet_ne _ _ (by decide),
    objGet_objSet_ne _ _ (by decide), objGet_objSet_ne _ _ (by decide)]

/-! ## Lemmas about the PAGES loop -/

theorem pagesLoop_nil (oracle : Nat → Except CallError String) (imgs : List GenPart)
    (i k : Nat) (files : List (String × String)) :
    pagesLoop oracle imgs [] i k files = (some (files, k), []) := rfl

/-- Inversion of a successful PAGES loop: it consumed one oracle call per
page, all successful, and recorded each invocation against the
index-aligned attachment. -/
theorem pagesLoop_ok_spec (oracle : Nat → Except CallError String) (imgs : List GenPart) :
    ∀ (pages : List String) (i k : Nat) (files fs : List (String × String))
      (k2 : Nat) (recs : List CallRec),
      pagesLoop oracle imgs pages i k files = (some (fs, k2), recs) →
      k2 = k + pages.length ∧
      recs = (List.range pages.length).map
        (fun j => (⟨k + j, .pages (i + j), [imgs[(i + j)]?], false⟩ : CallRec)) ∧
      (∀ j, j < pages.length → ∃ t, oracle (k + j) = .ok t) := by
  intro pages
  induction pages with
  | nil =>
    intro i k files fs k2 recs h
    rw [pagesLoop_nil] at h
    simp only [Prod.mk.injEq, Option.some.injEq] at h
    obtain ⟨⟨-, rfl⟩, rfl⟩ := h
    simp
  | cons p rest ih =>
    intro i k files fs k2 recs h
    rcases horacle : oracle k with e | t
    · rw [show pagesLoop oracle imgs (p :: rest) i k files
          = (none, [⟨k, .pages i, [imgs[i]?], false⟩]) from by
        simp [pagesLoop, horacle]] at h
      simp at h
    · rcases hres : pagesLoop oracle imgs rest (i + 1) (k + 1)
        (objSet files ("src/pages/" ++ p ++ ".jsx") t) with ⟨res1, recs1⟩
      rw [show pagesLoop oracle imgs (p :: rest) i k files
          = (res1, ⟨k, .pages i, [imgs[i]?], false⟩ :: recs1) from by
        simp [pagesLoop, horacle, hres]] at h
      simp only [Prod.mk.injEq] at h
      obtain ⟨h1, rfl⟩ := h
      subst h1
      obtain ⟨ihk, ihrecs, ihok⟩ := ih (i + 1) (k + 1) _ fs k2 recs1 hres
      refine ⟨by simp; omega, ?_, ?_⟩
      · rw [ihrecs, List.length_cons, List.range_succ_eq_map]
        simp only [List.map_cons, List.map_map]
        refine congrArg₂ List.cons (by simp) ?_
        refine List.map_congr_left ?_
        intro j hj
        show (⟨k + 1 + j, .pages (i + 1 + j), [imgs[(i + 1 + j)]?], false⟩ : CallRec)
          = ⟨k + (j + 1), .pages (i + (j + 1)), [imgs[(i + (j + 1))]?], false⟩
        rw [show k + 1 + j = k + (j + 1) by omega, show i + 1 + j = i + (j + 1) by omega]
      · intro j hj
        cases j with
        | zero => exact ⟨t, by simpa using horacle⟩
        | succ j2 =>
          have := ihok j2 (by simpa using hj)
          rwa [show k + 1 + j2 = k + (j2 + 1) by omega] at this

/-- When every invocation succeeds, the PAGES loop completes, issuing one
invocation per page against the index-aligned attachment. -/
theorem pagesLoop_all_ok (oracle : Nat → Except CallError String) (imgs : List GenPart)
    (hok : ∀ m, ∃ t, oracle m = .ok t) :
    ∀ (pages : List String) (i k : Nat) (files : List (String × String)),
    ∃ fs, pagesLoop oracle imgs pages i k files =
      (some (fs, k + pages.length),
       (List.range pages.length).map
         (fun j => (⟨k + j, .pages (i + j), [imgs[(i + j)]?], false⟩ : CallRec))) := by
  intro pages
  induction pages with
  | nil =>
    intro i k files
    exact ⟨files, by simp [pagesLoop_nil]⟩
  | cons p rest ih =>
    intro i k files
    obtain ⟨t, ht⟩ := hok k
    obtain ⟨fs, hfs⟩ := ih (i + 1) (k + 1) (objSet files ("src/pages/" ++ p ++ ".jsx") t)
    refine ⟨fs, ?_⟩
    rw [show pagesLoop oracle imgs (p :: rest) i k files
        = (some (fs, k + 1 + rest.length),
           ⟨k, .pages i, [imgs[i]?], false⟩
             :: (List.range rest.length).map
                  (fun j => (⟨k + 1 + j, .pages (i + 1 + j), [imgs[(i + 1 + j)]?], false⟩
                    : CallRec))) from by
      simp [pagesLoop, ht, hfs]]
    refine congrArg₂ Prod.mk ?_ ?_
    · rw [show k + 1 + rest.length = k + (rest.length + 1) by omega]
      simp [List.length_cons]
    · rw [List.length_cons, List.range_succ_eq_map]
      simp only [List.map_cons, List.map_map]
      refine congrArg₂ List.cons (by simp) ?_
      refine List.map_congr_left ?_
      intro j hj
      show (⟨k + 1 + j, .pages (i + 1 + j), [imgs[(i + 1 + j)]?], false⟩ : CallRec)
        = ⟨k + (j + 1), .pages (i + (j + 1)), [imgs[(i + (j + 1))]?], false⟩
      rw [show k + 1 + j = k + (j + 1) by omega, show i + 1 + j = i + (j + 1) by omega]

/-! ## Inversion of the tail of the pipeline -/

/-- Case analysis of `runPagesEntryReview`: it aborts with the generic
500 if the PAGES loop, the ENTRY invocation or the REVIEW invocation
throws; otherwise it succeeds, storing the ENTRY response at
`src/App.js`, merging the boilerplate, and returning the raw REVIEW
response text as `accuracyResult`. The trace extends `trace0` with the
invocations issued. -/
theorem runPER_cases (oracle : Nat → Except CallError String) (imgs : List GenPart)
    (pages : List String) (projectName : String) (startIdx : Nat)
    (files0 : List (String × String)) (trace0 : List CallRec)
    (resp : Response) (trace : List CallRec)
    (h : runPagesEntryReview oracle imgs pages projectName startIdx files0 trace0
      = (resp, trace)) :
    (∃ recs, pagesLoop oracle imgs pages 0 startIdx files0 = (none, recs) ∧
      resp = .serverError serverErrorMessage ∧ trace = trace0 ++ recs) ∨
    (∃ files1 k recs e, pagesLoop oracle imgs pages 0 startIdx files0 = (some (files1, k), recs) ∧
      oracle k = .error e ∧ resp = .serverError serverErrorMessage ∧
      trace = trace0 ++ recs ++ [⟨k, .entry, [], false⟩]) ∨
    (∃ files1 k recs appCode e,
      pagesLoop oracle imgs pages 0 startIdx files0 = (some (files1, k), recs) ∧
      oracle k = .ok appCode ∧ oracle (k + 1) = .error e ∧
      resp = .serverError serverErrorMessage ∧
      trace = trace0 ++ recs ++ [⟨k, .entry, [], false⟩, ⟨k + 1, .review, [imgs[0]?], true⟩]) ∨
    (∃ files1 k recs appCode acc,
      pagesLoop oracle imgs pages 0 startIdx files0 = (some (files1, k), recs) ∧
      oracle k = .ok appCode ∧ oracle (k + 1) = .ok acc ∧
      resp = .ok (getProjectFiles projectName (objSet files1 "src/App.js" appCode)) acc ∧
      trace = trace0 ++ recs ++ [⟨k, .entry, [], false⟩, ⟨k + 1, .review, [imgs[0]?], true⟩]) := by
  rcases hpl : pagesLoop oracle imgs pages 0 startIdx files0 with ⟨plres, recs⟩
  cases plres with
  | none =>
    left
    rw [show runPagesEntryReview oracle imgs pages projectName startIdx files0 trace0
        = (.serverError serverErrorMessage, trace0 ++ recs) from by
      simp [runPagesEntryReview, hpl]] at h
    simp only [Prod.mk.injEq] at h
    exact ⟨recs, rfl, h.1.symm, h.2.symm⟩
  | some pr =>
    rcases pr with ⟨files1, k⟩
    rcases hentry : oracle k with e | appCode
    · right; left
      rw [show runPagesEntryReview oracle imgs pages projectName startIdx files0 trace0
          = (.serverError serverErrorMessage, trace0 ++ recs ++ [⟨k, .entry, [], false⟩]) from by
        simp [runPagesEntryReview, hpl, hentry]] at h
      simp only [Prod.mk.injEq] at h
      exact ⟨files1, k, recs, e, rfl, hentry, h.1.symm, h.2.symm⟩
    · rcases hreview : oracle (k + 1) with e | acc
      · right; right; left
        rw [show runPagesEntryReview oracle imgs pages projectName startIdx files0 trace0
            = (.serverError serverErrorMessage,
               trace0 ++ recs ++ [⟨k, .entry, [], false⟩, ⟨k + 1, .review, [imgs[0]?], true⟩])
            from by simp [runPagesEntryReview, hpl, hentry, hreview]] at h
        simp only [Prod.mk.injEq] at h
        exact ⟨files1, k, recs, appCode, e, rfl, hentry, hreview, h.1.symm, h.2.symm⟩
      · right; right; right
        rw [show runPagesEntryReview oracle imgs pages projectName startIdx files0 trace0
            = (.ok (getProjectFiles projectName (objSet files1 "src/App.js" appCode)) acc,
               trace0 ++ recs ++ [⟨k, .entry, [], false⟩, ⟨k + 1, .review, [imgs[0]?], true⟩])
            from by simp [runPagesEntryReview, hpl, hentry, hreview]] at h
        simp only [Prod.mk.injEq] at h
        exact ⟨files1, k, recs, appCode, acc, rfl, hentry, hreview, h.1.symm, h.2.symm⟩

/-- Case analysis of the whole handler: the 400 branch for missing
screens; the generic 500 when the PLAN invocation or its repair loop
fails, when the COMPONENTS invocation or its repair loop fails; or the
hand-off to the PAGES/ENTRY/REVIEW tail with the call index, artifact
map and trace accumulated so far. -/
theorem generateCode_cases (oracle : Nat → Except CallError String)
    (pp : String → Option RawPlan) (cp : Nat → Except CallError String)
    (pc : String → Option (List (String × String))) (cc : Nat → Except CallError String)
    (rand : Nat) (pn : String) (sf : List (String × String))
    (resp : Response) (trace : List CallRec)
    (h : generateCode oracle pp cp pc cc rand pn sf = (resp, trace)) :
    (sf.length = 0 ∧ resp = .badRequest noScreensMessage ∧ trace = []) ∨
    (∃ e, sf.length ≠ 0 ∧ oracle 0 = .error e ∧
      resp = .serverError serverErrorMessage ∧ trace = [planRecOf sf]) ∨
    (∃ t er, sf.length ≠ 0 ∧ oracle 0 = .ok t ∧
      parseJsonWithCorrection pp cp t = .error er ∧
      resp = .serverError serverErrorMessage ∧ trace = [planRecOf sf]) ∨
    (∃ t rawPlan e, sf.length ≠ 0 ∧ oracle 0 = .ok t ∧
      parseJsonWithCorrection pp cp t = .ok rawPlan ∧
      (normalizePlan rand rawPlan).reusable_components.length > 0 ∧
      oracle 1 = .error e ∧ resp = .serverError serverErrorMessage ∧
      trace = [planRecOf sf, compRecOf sf]) ∨
    (∃ t rawPlan u er, sf.length ≠ 0 ∧ oracle 0 = .ok t ∧
      parseJsonWithCorrection pp cp t = .ok rawPlan ∧
      (normalizePlan rand rawPlan).reusable_components.length > 0 ∧
      oracle 1 = .ok u ∧ parseJsonWithCorrection pc cc u = .error er ∧
      resp = .serverError serverErrorMessage ∧
      trace = [planRecOf sf, compRecOf sf]) ∨
    (∃ t rawPlan u comps, sf.length ≠ 0 ∧ oracle 0 = .ok t ∧
      parseJsonWithCorrection pp cp t = .ok rawPlan ∧
      (normalizePlan rand rawPlan).reusable_components.length > 0 ∧
      oracle 1 = .ok u ∧ parseJsonWithCorrection pc cc u = .ok comps ∧
      runPagesEntryReview oracle (imagePartsOf sf) (normalizePlan rand rawPlan).pages pn 2
        (componentFiles comps) [planRecOf sf, compRecOf sf] = (resp, trace)) ∨
    (∃ t rawPlan, sf.length ≠ 0 ∧ oracle 0 = .ok t ∧
      parseJsonWithCorrection pp cp t = .ok rawPlan ∧
      ¬ (normalizePlan rand rawPlan).reusable_components.length > 0 ∧
      runPagesEntryReview oracle (imagePartsOf sf) (normalizePlan rand rawPlan).pages pn 1 []
        [planRecOf sf] = (resp, trace)) := by
  by_cases hsf : sf.length = 0
  · left
    rw [show generateCode oracle pp cp pc cc rand pn sf = (.badRequest noScreensMessage, []) from by
      simp [generateCode, hsf]] at h
    simp only [Prod.mk.injEq] at h
    exact ⟨hsf, h.1.symm, h.2.symm⟩
  · rcases h0 : oracle 0 with e | t
    · right; left
      rw [show generateCode oracle pp cp pc cc rand pn sf
          = (.serverError serverErrorMessage, [planRecOf sf]) from by
        simp [generateCode, hsf, h0]] at h
      simp only [Prod.mk.injEq] at h
      exact ⟨e, hsf, rfl, h.1.symm, h.2.symm⟩
    · rcases hrep : parseJsonWithCorrection pp cp t with er | rawPlan
      · right; right; left
        rw [show generateCode oracle pp cp pc cc rand pn sf
            = (.serverError serverErrorMessage, [planRecOf sf]) from by
          simp [generateCode, hsf, h0, hrep]] at h
        simp only [Prod.mk.injEq] at h
        exact ⟨t, er, hsf, rfl, hrep, h.1.symm, h.2.symm⟩
      · by_cases hcomp : (normalizePlan rand rawPlan).reusable_components.length > 0
        · rcases h1 : oracle 1 with e | u
          · right; right; right; left
            rw [show generateCode oracle pp cp pc cc rand pn sf
                = (.serverError serverErrorMessage, [planRecOf sf, compRecOf sf]) from by
              simp [generateCode, hsf, h0, hrep, hcomp, h1]] at h
            simp only [Prod.mk.injEq] at h
            exact ⟨t, rawPlan, e, hsf, rfl, hrep, hcomp, rfl, h.1.symm, h.2.symm⟩
          · rcases hrep2 : parseJsonWithCorrection pc cc u with er | comps
            · right; right; right; right; left
              rw [show generateCode oracle pp cp pc cc rand pn sf
                  = (.serverError serverErrorMessage, [planRecOf sf, compRecOf sf]) from by
                simp [generateCode, hsf, h0, hrep, hcomp, h1, hrep2]] at h
              simp only [Prod.mk.injEq] at h
              exact ⟨t, rawPlan, u, er, hsf, rfl, hrep, hcomp, rfl, hrep2, h.1.symm, h.2.symm⟩
            · right; right; right; right; right; left
              rw [show generateCode oracle pp cp pc cc rand pn sf
                  = runPagesEntryReview oracle (imagePartsOf sf)
                      (normalizePlan rand rawPlan).pages pn 2 (componentFiles comps)
                      [planRecOf sf, compRecOf sf] from by
                simp [generateCode, hsf, h0, hrep, hcomp, h1, hrep2]] at h
              exact ⟨t, rawPlan, u, comps, hsf, rfl, hrep, hcomp, rfl, hrep2, h⟩
        · right; right; right; right; right; right
          rw [show generateCode oracle pp cp pc cc rand pn sf
              = runPagesEntryReview oracle (imagePartsOf sf)
                  (normalizePlan rand rawPlan).pages pn 1 [] [planRecOf sf] from by
            simp [generateCode, hsf, h0, hrep, hcomp]] at h
          exact ⟨t, rawPlan, hsf, rfl, hrep, hcomp, h⟩

/-- Inversion of a successful run: every stage's invocation succeeded in
order, the ENTRY response is the stored `src/App.js` artifact, the raw
REVIEW response is the returned `accuracyResult`, and the trace lists the
PLAN call, the optional COMPONENTS call, one PAGES call per page, then
the ENTRY and REVIEW calls. -/
theorem generateCode_ok_spec (oracle : Nat → Except CallError String)
    (pp : String → Option RawPlan) (cp : Nat → Except CallError String)
    (pc : String → Option (List (String × String))) (cc : Nat → Except CallError String)
    (rand : Nat) (pn : String) (sf : List (String × String))
    (files : List (String × String)) (acc : String) (trace : List CallRec)
    (h : generateCode oracle pp cp pc cc rand pn sf = (.ok files acc, trace)) :
    ∃ t rawPlan startIdx files0 trace0 files1 k recs appCode,
      sf.length ≠ 0 ∧
      oracle 0 = .ok t ∧
      parseJsonWithCorrection pp cp t = .ok rawPlan ∧
      (((normalizePlan rand rawPlan).reusable_components.length > 0 ∧ startIdx = 2 ∧
        (∃ u comps, oracle 1 = .ok u ∧ parseJsonWithCorrection pc cc u = .ok comps ∧
          files0 = componentFiles comps) ∧ trace0 = [planRecOf sf, compRecOf sf]) ∨
       (¬ (normalizePlan rand rawPlan).reusable_components.length > 0 ∧ startIdx = 1 ∧
        files0 = [] ∧ trace0 = [planRecOf sf])) ∧
      pagesLoop oracle (imagePartsOf sf) (normalizePlan rand rawPlan).pages 0 startIdx files0
        = (some (files1, k), recs) ∧
      k = startIdx + (normalizePlan rand rawPlan).pages.length ∧
      recs = (List.range (normalizePlan rand rawPlan).pages.length).map
        (fun j => (⟨startIdx + j, .pages j, [(imagePartsOf sf)[j]?], false⟩ : CallRec)) ∧
      (∀ j, j < (normalizePlan rand rawPlan).pages.length →
        ∃ v, oracle (startIdx + j) = .ok v) ∧
      oracle k = .ok appCode ∧ oracle (k + 1) = .ok acc ∧
      files = getProjectFiles pn (objSet files1 "src/App.js" appCode) ∧
      trace = trace0 ++ recs
        ++ [⟨k, .entry, [], false⟩, ⟨k + 1, .review, [(imagePartsOf sf)[0]?], true⟩] := by
  rcases generateCode_cases oracle pp cp pc cc rand pn sf _ _ h with
    ⟨-, hresp, -⟩ | ⟨e, -, -, hresp, -⟩ | ⟨t, er, -, -, -, hresp, -⟩ |
    ⟨t, rawPlan, e, -, -, -, -, -, hresp, -⟩ | ⟨t, rawPlan, u, er, -, -, -, -, -, -, hresp, -⟩ |
    ⟨t, rawPlan, u, comps, hsf, h0, hrep, hcomp, h1, hrep2, hrun⟩ |
    ⟨t, rawPlan, hsf, h0, hrep, hcomp, hrun⟩
  · exact absurd hresp (by simp)
  · exact absurd hresp (by simp)
  · exact absurd hresp (by simp)
  · exact absurd hresp (by simp)
  · exact absurd hresp (by simp)
  · rcases runPER_cases _ _ _ _ _ _ _ _ _ hrun with
      ⟨recs, -, hresp, -⟩ | ⟨f1, k, recs, e, -, -, hresp, -⟩ |
      ⟨f1, k, recs, appCode, e, -, -, -, hresp, -⟩ |
      ⟨f1, k, recs, appCode, acc2, hpl, hentry, hreview, hresp, htrace⟩
    · exact absurd hresp (by simp)
    · exact absurd hresp (by simp)
    · exact absurd hresp (by simp)
    · obtain ⟨hk, hrecs, hpagesok⟩ :=
        pagesLoop_ok_spec oracle (imagePartsOf sf) _ 0 2 _ f1 k recs hpl
      simp only [Response.ok.injEq] at hresp
      obtain ⟨hfiles, hacc⟩ := hresp
      subst hacc
      refine ⟨t, rawPlan, 2, componentFiles comps, [planRecOf sf, compRecOf sf], f1, k,
        recs, appCode, hsf, h0, hrep, Or.inl ⟨hcomp, rfl, ⟨u, comps, h1, hrep2, rfl⟩, rfl⟩,
        hpl, hk, by simpa using hrecs, hpagesok, hentry, hreview, hfiles, htrace⟩
  · rcases runPER_cases _ _ _ _ _ _ _ _ _ hrun with
      ⟨recs, -, hresp, -⟩ | ⟨f1, k, recs, e, -, -, hresp, -⟩ |
      ⟨f1, k, recs, appCode, e, -, -, -, hresp, -⟩ |
      ⟨f1, k, recs, appCode, acc2, hpl, hentry, hreview, hresp, htrace⟩
    · exact absurd hresp (by simp)
    · exact absurd hresp (by simp)
    · exact absurd hresp (by simp)
    · obtain ⟨hk, hrecs, hpagesok⟩ :=
        pagesLoop_ok_spec oracle (imagePartsOf sf) _ 0 1 _ f1 k recs hpl
      simp only [Response.ok.injEq] at hresp
      obtain ⟨hfiles, hacc⟩ := hresp
      subst hacc
      refine ⟨t, rawPlan, 1, [], [planRecOf sf], f1, k, recs, appCode, hsf, h0, hrep,
        Or.inr ⟨hcomp, rfl, rfl, rfl⟩, hpl, hk, by simpa using hrecs, hpagesok,
        hentry, hreview, hfiles, htrace⟩

/-- In a successful run, every invocation recorded in the trace (its
oracle consultation) succeeded. -/
theorem generateCode_ok_all_calls_ok (oracle : Nat → Except CallError String)
    (pp : String → Option RawPlan) (cp : Nat → Except CallError String)
    (pc : String → Option (List (String × String))) (cc : Nat → Except CallError String)
    (rand : Nat) (pn : String) (sf : List (String × String))
    (files : List (String × String)) (acc : String) (trace : List CallRec)
    (h : generateCode oracle pp cp pc cc rand pn sf = (.ok files acc, trace)) :
    ∀ rc ∈ trace, ∃ v, oracle rc.idx = .ok v := by
  obtain ⟨t, rawPlan, startIdx, files0, trace0, files1, k, recs, appCode,
    hsf, h0, hrep, hbranch, hpl, hk, hrecs, hpagesok, hentry, hreview, hfiles, htrace⟩ :=
    generateCode_ok_spec _ _ _ _ _ _ _ _ _ _ _ h
  intro rc hrc
  rw [htrace] at hrc
  simp only [List.mem_append, List.mem_cons, List.not_mem_nil, or_false] at hrc
  rcases hrc with (hrc0 | hrcrecs) | rfl | rfl
  · rcases hbranch with ⟨-, -, ⟨u, comps, h1, -, -⟩, htr0⟩ | ⟨-, -, -, htr0⟩
    · rw [htr0] at hrc0
      have hrc1 : rc = planRecOf sf ∨ rc = compRecOf sf := by simpa using hrc0
      rcases hrc1 with hpr | hpr
      · rw [hpr]
        exact ⟨t, h0⟩
      · rw [hpr]
        exact ⟨u, h1⟩
    · rw [htr0] at hrc0
      have hrc1 : rc = planRecOf sf := by simpa using hrc0
      rw [hrc1]
      exact ⟨t, h0⟩
  · rw [hrecs] at hrcrecs
    rcases List.mem_map.mp hrcrecs with ⟨j, hj, rfl⟩
    exact hpagesok j (List.mem_range.mp hj)
  · exact ⟨appCode, hentry⟩
  · exact ⟨acc, hreview⟩

/-! ## Claim C5 -/

/-- C5: failures of the PLAN, COMPONENTS, PAGES or ENTRY stage abort the
whole run with the single generic 500 failure and no artifacts: every 500
response carries exactly the generic message and an empty artifact
channel; a PLAN invocation failure, a PLAN repair failure, a COMPONENTS
invocation or repair failure, and any failed non-REVIEW invocation
recorded in the trace each force that 500 response — a partially built
scaffold is never returned. -/
theorem generateCode_abort_policy (oracle : Nat → Except CallError String)
    (pp : String → Option RawPlan) (cp : Nat → Except CallError String)
    (pc : String → Option (List (String × String))) (cc : Nat → Except CallError String)
    (rand : Nat) (pn : String) (sf : List (String × String))
    (resp : Response) (trace : List CallRec)
    (h : generateCode oracle pp cp pc cc rand pn sf = (resp, trace)) :
    (∀ m, resp = Response.serverError m →
      m = serverErrorMessage ∧ responseFiles resp = none) ∧
    (∀ e, sf.length ≠ 0 → oracle 0 = .error e → resp = .serverError serverErrorMessage) ∧
    (∀ t er, sf.length ≠ 0 → oracle 0 = .ok t →
      parseJsonWithCorrection pp cp t = .error er →
      resp = .serverError serverErrorMessage) ∧
    (∀ t rawPlan u er, sf.length ≠ 0 → oracle 0 = .ok t →
      parseJsonWithCorrection pp cp t = .ok rawPlan →
      (normalizePlan rand rawPlan).reusable_components.length > 0 →
      oracle 1 = .ok u → parseJsonWithCorrection pc cc u = .error er →
      resp = .serverError serverErrorMessage) ∧
    (∀ rc ∈ trace, rc.stage ≠ .review → (∀ v, oracle rc.idx ≠ .ok v) →
      resp = .serverError serverErrorMessage) := by
  have hser : ∀ m, Response.serverError serverErrorMessage = Response.serverError m →
      m = serverErrorMessage ∧
      responseFiles (Response.serverError serverErrorMessage) = none := by
    intro m hm
    simp only [Response.serverError.injEq] at hm
    exact ⟨hm.symm, rfl⟩
  rcases generateCode_cases oracle pp cp pc cc rand pn sf _ _ h with
    ⟨hsf, hresp, htrace⟩ | ⟨e, hsf, h0, hresp, htrace⟩ |
    ⟨t, er, hsf, h0, hrep, hresp, htrace⟩ |
    ⟨t, rawPlan, e, hsf, h0, hrep, hcomp, h1, hresp, htrace⟩ |
    ⟨t, rawPlan, u, er, hsf, h0, hrep, hcomp, h1, hrep2, hresp, htrace⟩ |
    ⟨t, rawPlan, u, comps, hsf, h0, hrep, hcomp, h1, hrep2, hrun⟩ |
    ⟨t, rawPlan, hsf, h0, hrep, hcomp, hrun⟩
  · subst hresp; subst htrace
    refine ⟨fun m hm => by simp at hm, fun e hne => absurd hsf hne,
      fun t er hne => absurd hsf hne, fun a b c d hne => absurd hsf hne,
      fun rc hrc => by simp at hrc⟩
  · subst hresp
    exact ⟨hser, fun _ _ _ => rfl, fun _ _ _ _ _ => rfl,
      fun _ _ _ _ _ _ _ _ _ _ => rfl, fun _ _ _ _ => rfl⟩
  · subst hresp
    exact ⟨hser, fun _ _ _ => rfl, fun _ _ _ _ _ => rfl,
      fun _ _ _ _ _ _ _ _ _ _ => rfl, fun _ _ _ _ => rfl⟩
  · subst hresp
    exact ⟨hser, fun _ _ _ => rfl, fun _ _ _ _ _ => rfl,
      fun _ _ _ _ _ _ _ _ _ _ => rfl, fun _ _ _ _ => rfl⟩
  · subst hresp
    exact ⟨hser, fun _ _ _ => rfl, fun _ _ _ _ _ => rfl,
      fun _ _ _ _ _ _ _ _ _ _ => rfl, fun _ _ _ _ => rfl⟩
  · rcases runPER_cases _ _ _ _ _ _ _ _ _ hrun with
      ⟨recs, -, hresp, -⟩ | ⟨f1, k, recs, e2, -, -, hresp, -⟩ |
      ⟨f1, k, recs, appCode, e2, -, -, -, hresp, -⟩ |
      ⟨f1, k, recs, appCode, acc2, hpl, hentry, hreview, hresp, htrace⟩
    · subst hresp
      exact ⟨hser, fun _ _ _ => rfl, fun _ _ _ _ _ => rfl,
        fun _ _ _ _ _ _ _ _ _ _ => rfl, fun _ _ _ _ => rfl⟩
    · subst hresp
      exact ⟨hser, fun _ _ _ => rfl, fun _ _ _ _ _ => rfl,
        fun _ _ _ _ _ _ _ _ _ _ => rfl, fun _ _ _ _ => rfl⟩
    · subst hresp
      exact ⟨hser, fun _ _ _ => rfl, fun _ _ _ _ _ => rfl,
        fun _ _ _ _ _ _ _ _ _ _ => rfl, fun _ _ _ _ => rfl⟩
    · subst hresp
      refine ⟨fun m hm => by simp at hm, ?_, ?_, ?_, ?_⟩
      · intro e2 hne h0e
        rw [h0] at h0e
        simp at h0e
      · intro t2 er hne h0e hrepe
        rw [h0] at h0e
        simp only [Except.ok.injEq] at h0e
        subst h0e
        rw [hrep] at hrepe
        simp at hrepe
      · intro t2 rawPlan2 u2 er hne h0e hrepe hcompe h1e hrep2e
        rw [h0] at h0e
        simp only [Except.ok.injEq] at h0e
        subst h0e
        rw [hrep] at hrepe
        simp only [Except.ok.injEq] at hrepe
        subst hrepe
        rw [h1] at h1e
        simp only [Except.ok.injEq] at h1e
        subst h1e
        rw [hrep2] at hrep2e
        simp at hrep2e
      · intro rc hrc hstage hfail
        obtain ⟨v, hv⟩ := generateCode_ok_all_calls_ok _ _ _ _ _ _ _ _ _ _ _ h rc hrc
        exact absurd hv (hfail v)
  · rcases runPER_cases _ _ _ _ _ _ _ _ _ hrun with
      ⟨recs, -, hresp, -⟩ | ⟨f1, k, recs, e2, -, -, hresp, -⟩ |
      ⟨f1, k, recs, appCode, e2, -, -, -, hresp, -⟩ |
      ⟨f1, k, recs, appCode, acc2, hpl, hentry, hreview, hresp, htrace⟩
    · subst hresp
      exact ⟨hser, fun _ _ _ => rfl, fun _ _ _ _ _ => rfl,
        fun _ _ _ _ _ _ _ _ _ _ => rfl, fun _ _ _ _ => rfl⟩
    · subst hresp
      exact ⟨hser, fun _ _ _ => rfl, fun _ _ _ _ _ => rfl,
        fun _ _ _ _ _ _ _ _ _ _ => rfl, fun _ _ _ _ => rfl⟩
    · subst hresp
      exact ⟨hser, fun _ _ _ => rfl, fun _ _ _ _ _ => rfl,
        fun _ _ _ _ _ _ _ _ _ _ => rfl, fun _ _ _ _ => rfl⟩
    · subst hresp
      refine ⟨fun m hm => by simp at hm, ?_, ?_, ?_, ?_⟩
      · intro e2 hne h0e
        rw [h0] at h0e
        simp at h0e
      · intro t2 er hne h0e hrepe
        rw [h0] at h0e
        simp only [Except.ok.injEq] at h0e
        subst h0e
        rw [hrep] at hrepe
        simp at hrepe
      · intro t2 rawPlan2 u2 er hne h0e hrepe hcompe h1e hrep2e
        rw [h0] at h0e
        simp only [Except.ok.injEq] at h0e
        subst h0e
        rw [hrep] at hrepe
        simp only [Except.ok.injEq] at hrepe
        subst hrepe
        exact absurd hcompe hcomp
      · intro rc hrc hstage hfail
        obtain ⟨v, hv⟩ := generateCode_ok_all_calls_ok _ _ _ _ _ _ _ _ _ _ _ h rc hrc
        exact absurd hv (hfail v)

/-- C5 witness: a run whose PLAN invocation throws a non-rate-limit error
yields exactly the generic 500. -/
theorem generateCode_abort_policy_witness :
    (generateCode (fun _ => .error (.rethrown ⟨some 500, none⟩)) (fun _ => none)
      (fun _ => .ok "x") (fun _ => none) (fun _ => .ok "x") 0 "p" [("i", "m")]).1
      = .serverError serverErrorMessage := by
  exact (generateCode_abort_policy _ _ _ _ _ _ _ _ _ _ Prod.mk.eta.symm).2.1
    (.rethrown ⟨some 500, none⟩) (by decide) rfl

/-- The `accuracyResult` channel of a response (only the success response
has one). -/
def responseAccuracy : Response → Option String
  | .ok _ acc => some acc
  | .badRequest _ => none
  | .serverError _ => none

/-- Modelled from the spec (§6, `review: { score, justification }`): a
necessary condition for a string to denote a JSON object value — after
trimming it must start with an opening brace. Used only to compare the
spec's claimed review shape against the raw text the code returns. -/
def specReviewShaped (s : String) : Bool :=
  match jsTrim s.data with
  | c :: _ => c = Char.ofNat 123
  | [] => false

/-- A 400 response only arises from the missing-screens guard, before any
invocation: its trace is empty. -/
theorem generateCode_badRequest_trace (oracle : Nat → Except CallError String)
    (pp : String → Option RawPlan) (cp : Nat → Except CallError String)
    (pc : String → Option (List (String × String))) (cc : Nat → Except CallError String)
    (rand : Nat) (pn : String) (sf : List (String × String))
    (m : String) (trace : List CallRec)
    (h : generateCode oracle pp cp pc cc rand pn sf = (.badRequest m, trace)) :
    trace = [] ∧ m = noScreensMessage := by
  rcases generateCode_cases oracle pp cp pc cc rand pn sf _ _ h with
    ⟨-, hresp, htrace⟩ | ⟨e, -, -, hresp, -⟩ | ⟨t, er, -, -, -, hresp, -⟩ |
    ⟨t, rawPlan, e, -, -, -, -, -, hresp, -⟩ | ⟨t, rawPlan, u, er, -, -, -, -, -, -, hresp, -⟩ |
    ⟨t, rawPlan, u, comps, -, -, -, -, -, -, hrun⟩ | ⟨t, rawPlan, -, -, -, -, hrun⟩
  · simp only [Response.badRequest.injEq] at hresp
    exact ⟨htrace, hresp⟩
  · exact absurd hresp (by simp)
  · exact absurd hresp (by simp)
  · exact absurd hresp (by simp)
  · exact absurd hresp (by simp)
  · rcases runPER_cases _ _ _ _ _ _ _ _ _ hrun with
      ⟨_, -, hresp, -⟩ | ⟨_, _, _, _, -, -, hresp, -⟩ |
      ⟨_, _, _, _, _, -, -, -, hresp, -⟩ | ⟨_, _, _, _, _, -, -, -, hresp, -⟩ <;>
      exact absurd hresp (by simp)
  · rcases runPER_cases _ _ _ _ _ _ _ _ _ hrun with
      ⟨_, -, hresp, -⟩ | ⟨_, _, _, _, -, -, hresp, -⟩ |
      ⟨_, _, _, _, _, -, -, -, hresp, -⟩ | ⟨_, _, _, _, _, -, -, -, hresp, -⟩ <;>
      exact absurd hresp (by simp)

/-- Every 500 response carries the one generic message. -/
theorem generateCode_serverError_msg (oracle : Nat → Except CallError String)
    (pp : String → Option RawPlan) (cp : Nat → Except CallError String)
    (pc : String → Option (List (String × String))) (cc : Nat → Except CallError String)
    (rand : Nat) (pn : String) (sf : List (String × String))
    (m : String) (trace : List CallRec)
    (h : generateCode oracle pp cp pc cc rand pn sf = (.serverError m, trace)) :
    m = serverErrorMessage := by
  rcases generateCode_cases oracle pp cp pc cc rand pn sf _ _ h with
    ⟨-, hresp, -⟩ | ⟨e, -, -, hresp, -⟩ | ⟨t, er, -, -, -, hresp, -⟩ |
    ⟨t, rawPlan, e, -, -, -, -, -, hresp, -⟩ | ⟨t, rawPlan, u, er, -, -, -, -, -, -, hresp, -⟩ |
    ⟨t, rawPlan, u, comps, -, -, -, -, -, -, hrun⟩ | ⟨t, rawPlan, -, -, -, -, hrun⟩
  · exact absurd hresp (by simp)
  · simp only [Response.serverError.injEq] at hresp
    exact hresp
  · simp only [Response.serverError.injEq] at hresp
    exact hresp
  · simp only [Response.serverError.injEq] at hresp
    exact hresp
  · simp only [Response.serverError.injEq] at hresp
    exact hresp
  · rcases runPER_cases _ _ _ _ _ _ _ _ _ hrun with
      ⟨_, -, hresp, -⟩ | ⟨_, _, _, _, -, -, hresp, -⟩ |
      ⟨_, _, _, _, _, -, -, -, hresp, -⟩ | ⟨_, _, _, _, _, -, -, -, hresp, -⟩ <;>
      first
        | (simp only [Response.serverError.injEq] at hresp
           exact hresp)
        | exact absurd hresp (by simp)
  · rcases runPER_cases _ _ _ _ _ _ _ _ _ hrun with
      ⟨_, -, hresp, -⟩ | ⟨_, _, _, _, -, -, hresp, -⟩ |
      ⟨_, _, _, _, _, -, -, -, hresp, -⟩ | ⟨_, _, _, _, _, -, -, -, hresp, -⟩ <;>
      first
        | (simp only [Response.serverError.injEq] at hresp
           exact hresp)
        | exact absurd hresp (by simp)

/-! ## Concrete fixtures for closed counterexamples and witnesses -/

/-- A one-page, zero-component raw plan. -/
def demoRawPlanOnePage : RawPlan :=
  { pages := [some "Home"], reusable_components := [] }

/-- A parse oracle recognizing exactly the text "PLAN" as the one-page
plan. -/
def demoParsePlanOnePage : String → Option RawPlan :=
  fun s => if s = "PLAN" then some demoRawPlanOnePage else none

/-- Invocation outcomes for a run whose REVIEW invocation (the fourth
call) throws a non-rate-limit error. -/
def reviewFailOracle : Nat → Except CallError String := fun k =>
  if k = 0 then .ok "PLAN"
  else if k = 1 then .ok "pagecode"
  else if k = 2 then .ok "entrycode"
  else .error (.rethrown ⟨some 503, none⟩)

/-- Invocation outcomes for a fully successful one-page run whose REVIEW
response is the non-JSON text "oops". -/
def reviewOddOracle : Nat → Except CallError String := fun k =>
  if k = 0 then .ok "PLAN"
  else if k = 1 then .ok "pagecode"
  else if k = 2 then .ok "entrycode"
  else .ok "oops"

/-! ## Claim C2 -/

/-- C2 counterexample: in a run with one page where all stages up to
ENTRY succeed but the REVIEW invocation throws, the handler returns the
generic 500 — the REVIEW failure aborts the run (and no zero-score
placeholder is produced), refuting "a REVIEW failure never aborts the
run". -/
theorem review_abort_counterexample :
    (generateCode reviewFailOracle demoParsePlanOnePage (fun _ => .ok "x")
        (fun _ => none) (fun _ => .ok "x") 0 "p" [("i", "m")]).1
      = .serverError serverErrorMessage ∧
    (generateCode reviewFailOracle demoParsePlanOnePage (fun _ => .ok "x")
        (fun _ => none) (fun _ => .ok "x") 0 "p" [("i", "m")]).2.getLast?
      = some ⟨3, .review, [some ⟨"i", "m"⟩], true⟩ ∧
    reviewFailOracle 3 = .error (.rethrown ⟨some 503, none⟩) := by
  decide

/-- C2 (amended): a REVIEW invocation that throws aborts the run with the
same generic 500 as any other stage; but because the REVIEW response text
is never parsed, a REVIEW response that is not a valid structured
`{score, justification}` result does not abort the run — the raw text is
returned verbatim as the review value, and no zero-score placeholder
exists anywhere. -/
theorem review_failure_policy (oracle : Nat → Except CallError String)
    (pp : String → Option RawPlan) (cp : Nat → Except CallError String)
    (pc : String → Option (List (String × String))) (cc : Nat → Except CallError String)
    (rand : Nat) (pn : String) (sf : List (String × String))
    (resp : Response) (trace : List CallRec)
    (h : generateCode oracle pp cp pc cc rand pn sf = (resp, trace)) :
    (∀ rc ∈ trace, rc.stage = .review → (∀ v, oracle rc.idx ≠ .ok v) →
      resp = .serverError serverErrorMessage) ∧
    (∀ acc, responseAccuracy resp = some acc →
      ∃ rc ∈ trace, rc.stage = .review ∧ oracle rc.idx = .ok acc) := by
  constructor
  · intro rc hrc hstage hfail
    match hres : resp with
    | .ok files acc =>
      obtain ⟨v, hv⟩ := generateCode_ok_all_calls_ok _ _ _ _ _ _ _ _ _ _ _ h rc hrc
      exact absurd hv (hfail v)
    | .badRequest m =>
      obtain ⟨htrace, -⟩ := generateCode_badRequest_trace _ _ _ _ _ _ _ _ _ _ h
      rw [htrace] at hrc
      simp at hrc
    | .serverError m =>
      rw [generateCode_serverError_msg _ _ _ _ _ _ _ _ _ _ h]
  · intro acc hacc
    match hres : resp with
    | .badRequest m => simp [responseAccuracy] at hacc
    | .serverError m => simp [responseAccuracy] at hacc
    | .ok files acc2 =>
      simp only [responseAccuracy, Option.some.injEq] at hacc
      subst hacc
      obtain ⟨t, rawPlan, startIdx, files0, trace0, files1, k, recs, appCode,
        hsf, h0, hrep, hbranch, hpl, hk, hrecs, hpagesok, hentry, hreview, hfiles, htrace⟩ :=
        generateCode_ok_spec _ _ _ _ _ _ _ _ _ _ _ h
      refine ⟨⟨k + 1, .review, [(imagePartsOf sf)[0]?], true⟩, ?_, rfl, hreview⟩
      rw [htrace]
      simp

/-- C2 witness: the amended theorem applied to the concrete failing-REVIEW
run. -/
theorem review_failure_policy_witness :
    (generateCode reviewFailOracle demoParsePlanOnePage (fun _ => .ok "x")
        (fun _ => none) (fun _ => .ok "x") 0 "p" [("i", "m")]).1
      = .serverError serverErrorMessage := by
  refine (review_failure_policy _ _ _ _ _ _ _ _ _ _ Prod.mk.eta.symm).1
    ⟨3, .review, [some ⟨"i", "m"⟩], true⟩ (by decide) rfl ?_
  intro v hv
  simp [reviewFailOracle] at hv

/-! ## Claim C6 -/

/-- C6 counterexample: a fully successful run can hand back, as the
review value, the raw text "oops" — which is not even the shape of a JSON
object, let alone a structured value with a numeric score and a string
justification — refuting "the review value is a structured object with a
numeric score field and a string justification field". -/
theorem review_unstructured_counterexample :
    responseAccuracy (generateCode reviewOddOracle demoParsePlanOnePage (fun _ => .ok "x")
        (fun _ => none) (fun _ => .ok "x") 0 "p" [("i", "m")]).1
      = some "oops" ∧
    specReviewShaped "oops" = false := by
  decide

/-- C6 (amended): for every successful run, the value handed back
alongside the artifact map is the verbatim raw text of the REVIEW
invocation — the final invocation of the run, issued with a JSON response
shape — with no parsing and no shape guarantee. -/
theorem review_raw_result (oracle : Nat → Except CallError String)
    (pp : String → Option RawPlan) (cp : Nat → Except CallError String)
    (pc : String → Option (List (String × String))) (cc : Nat → Except CallError String)
    (rand : Nat) (pn : String) (sf : List (String × String))
    (resp : Response) (trace : List CallRec)
    (h : generateCode oracle pp cp pc cc rand pn sf = (resp, trace)) :
    ∀ acc, responseAccuracy resp = some acc →
      ∃ rc, trace.getLast? = some rc ∧ rc.stage = .review ∧ rc.isJson = true ∧
        oracle rc.idx = .ok acc := by
  intro acc hacc
  match hres : resp with
  | .badRequest m => simp [responseAccuracy] at hacc
  | .serverError m => simp [responseAccuracy] at hacc
  | .ok files acc2 =>
    simp only [responseAccuracy, Option.some.injEq] at hacc
    subst hacc
    obtain ⟨t, rawPlan, startIdx, files0, trace0, files1, k, recs, appCode,
      hsf, h0, hrep, hbranch, hpl, hk, hrecs, hpagesok, hentry, hreview, hfiles, htrace⟩ :=
      generateCode_ok_spec _ _ _ _ _ _ _ _ _ _ _ h
    refine ⟨⟨k + 1, .review, [(imagePartsOf sf)[0]?], true⟩, ?_, rfl, rfl, hreview⟩
    rw [htrace]
    simp

/-- C6 witness: the amended theorem applied to the concrete "oops" run. -/
theorem review_raw_result_witness :
    ∃ rc, (generateCode reviewOddOracle demoParsePlanOnePage (fun _ => .ok "x")
        (fun _ => none) (fun _ => .ok "x") 0 "p" [("i", "m")]).2.getLast? = some rc ∧
      rc.stage = .review ∧ rc.isJson = true ∧ reviewOddOracle rc.idx = .ok "oops" := by
  exact review_raw_result _ _ _ _ _ _ _ _ _ _ Prod.mk.eta.symm "oops" (by decide)

/-! ## Claim C1 -/

/-- Invocation outcomes for a run whose PLAN parses to an empty plan,
with ENTRY and REVIEW succeeding. -/
def emptyPlanOracle : Nat → Except CallError String := fun k =>
  if k = 0 then .ok "PLAN0"
  else if k = 1 then .ok "ENTRYCODE"
  else .ok "review!"

/-- A parse oracle recognizing exactly the text "PLAN0" as the empty
plan. -/
def demoParsePlanEmpty : String → Option RawPlan :=
  fun s => if s = "PLAN0" then some { pages := [], reusable_components := [] } else none

/-- C1 counterexample: in a run whose PLAN yields zero pages, the run
completes with no PAGES invocations, but the ENTRY artifact is produced
BY a generation invocation (the trace contains an entry-stage call and
`src/App.js` holds that call's response, not a static fallback), and the
review value is the raw REVIEW text "review!", not a placeholder with
score 0 — refuting "a static fallback entry artifact produced without a
generation call" and "a review placeholder with score 0". -/
theorem entry_not_fallback_counterexample :
    (generateCode emptyPlanOracle demoParsePlanEmpty (fun _ => .ok "x")
        (fun _ => none) (fun _ => .ok "x") 0 "p" [("i", "m")]).2
      = [⟨0, .plan, [some ⟨"i", "m"⟩], false⟩, ⟨1, .entry, [], false⟩,
         ⟨2, .review, [some ⟨"i", "m"⟩], true⟩] ∧
    ((responseFiles (generateCode emptyPlanOracle demoParsePlanEmpty (fun _ => .ok "x")
        (fun _ => none) (fun _ => .ok "x") 0 "p" [("i", "m")]).1).bind
      (fun fs => objGet fs "src/App.js")) = some "ENTRYCODE" ∧
    responseAccuracy (generateCode emptyPlanOracle demoParsePlanEmpty (fun _ => .ok "x")
        (fun _ => none) (fun _ => .ok "x") 0 "p" [("i", "m")]).1 = some "review!" ∧
    specReviewShaped "review!" = false := by
  decide

/-- C1 (amended): for every run whose PLAN stage parses to a plan with an
empty pages list, no PAGES invocation is ever issued; if the run
completes successfully, the entry artifact `src/App.js` is the response
of an ENTRY generation invocation recorded in the trace (there is no
static fallback), and the review value is the raw text of the following
REVIEW invocation (there is no zero-score placeholder); and when the plan
also has no reusable components and the ENTRY and REVIEW invocations
succeed, the run does complete successfully with exactly those calls. -/
theorem empty_plan_run_spec (oracle : Nat → Except CallError String)
    (pp : String → Option RawPlan) (cp : Nat → Except CallError String)
    (pc : String → Option (List (String × String))) (cc : Nat → Except CallError String)
    (rand : Nat) (pn : String) (sf : List (String × String))
    (resp : Response) (trace : List CallRec) (t : String) (rawPlan : RawPlan)
    (h : generateCode oracle pp cp pc cc rand pn sf = (resp, trace))
    (h0 : oracle 0 = .ok t)
    (hrep : parseJsonWithCorrection pp cp t = .ok rawPlan)
    (hpages : rawPlan.pages = []) :
    (∀ rc ∈ trace, ∀ i, rc.stage ≠ .pages i) ∧
    (∀ acc, responseAccuracy resp = some acc →
      ∃ k appCode files, resp = .ok files acc ∧ oracle k = .ok appCode ∧
        (⟨k, .entry, [], false⟩ : CallRec) ∈ trace ∧
        objGet files "src/App.js" = some appCode ∧ oracle (k + 1) = .ok acc) ∧
    (rawPlan.reusable_components = [] → sf.length ≠ 0 →
      ∀ a b, oracle 1 = .ok a → oracle 2 = .ok b →
        resp = .ok (getProjectFiles pn (objSet [] "src/App.js" a)) b) := by
  have hpn : (normalizePlan rand rawPlan).pages = [] := by
    simp [normalizePlan, hpages]
  refine ⟨?_, ?_, ?_⟩
  · intro rc hrc i
    rcases generateCode_cases oracle pp cp pc cc rand pn sf _ _ h with
      ⟨-, -, htrace⟩ | ⟨e, -, h0c, -, -⟩ | ⟨t2, er, -, h0c, hrepc, -, -⟩ |
      ⟨t2, rawPlan2, e, -, h0c, hrepc, -, -, -, htrace⟩ |
      ⟨t2, rawPlan2, u, er, -, h0c, hrepc, -, -, -, -, htrace⟩ |
      ⟨t2, rawPlan2, u, comps, -, h0c, hrepc, -, -, -, hrun⟩ |
      ⟨t2, rawPlan2, -, h0c, hrepc, -, hrun⟩
    · rw [htrace] at hrc
      simp at hrc
    · rw [h0] at h0c
      simp at h0c
    · rw [h0] at h0c
      simp only [Except.ok.injEq] at h0c
      subst h0c
      rw [hrep] at hrepc
      simp at hrepc
    · rw [h0] at h0c
      simp only [Except.ok.injEq] at h0c
      subst h0c
      rw [htrace] at hrc
      have hmem : rc = planRecOf sf ∨ rc = compRecOf sf := by simpa using hrc
      rcases hmem with hm | hm <;> rw [hm] <;> simp [planRecOf, compRecOf]
    · rw [h0] at h0c
      simp only [Except.ok.injEq] at h0c
      subst h0c
      rw [htrace] at hrc
      have hmem : rc = planRecOf sf ∨ rc = compRecOf sf := by simpa using hrc
      rcases hmem with hm | hm <;> rw [hm] <;> simp [planRecOf, compRecOf]
    · rw [h0] at h0c
      simp only [Except.ok.injEq] at h0c
      subst h0c
      rw [hrep] at hrepc
      simp only [Except.ok.injEq] at hrepc
      subst hrepc
      rcases runPER_cases _ _ _ _ _ _ _ _ _ hrun with
        ⟨recs, hpl, -, htrace⟩ | ⟨f1, k, recs, e, hpl, -, -, htrace⟩ |
        ⟨f1, k, recs, appCode, e, hpl, -, -, -, htrace⟩ |
        ⟨f1, k, recs, appCode, acc2, hpl, -, -, -, htrace⟩ <;>
        rw [hpn, pagesLoop_nil] at hpl
      · simp at hpl
      · simp only [Prod.mk.injEq, Option.some.injEq] at hpl
        obtain ⟨-, hrecs⟩ := hpl
        rw [htrace, ← hrecs] at hrc
        have hmem : rc = planRecOf sf ∨ rc = compRecOf sf ∨
            rc = (⟨k, .entry, [], false⟩ : CallRec) := by
          simpa using hrc
        rcases hmem with hm | hm | hm <;> rw [hm] <;>
          simp [planRecOf, compRecOf]
      · simp only [Prod.mk.injEq, Option.some.injEq] at hpl
        obtain ⟨-, hrecs⟩ := hpl
        rw [htrace, ← hrecs] at hrc
        have hmem : rc = planRecOf sf ∨ rc = compRecOf sf ∨
            rc = (⟨k, .entry, [], false⟩ : CallRec) ∨
            rc = (⟨k + 1, .review, [(imagePartsOf sf)[0]?], true⟩ : CallRec) := by
          simpa using hrc
        rcases hmem with hm | hm | hm | hm <;> rw [hm] <;>
          simp [planRecOf, compRecOf]
      · simp only [Prod.mk.injEq, Option.some.injEq] at hpl
        obtain ⟨-, hrecs⟩ := hpl
        rw [htrace, ← hrecs] at hrc
        have hmem : rc = planRecOf sf ∨ rc = compRecOf sf ∨
            rc = (⟨k, .entry, [], false⟩ : CallRec) ∨
            rc = (⟨k + 1, .review, [(imagePartsOf sf)[0]?], true⟩ : CallRec) := by
          simpa using hrc
        rcases hmem with hm | hm | hm | hm <;> rw [hm] <;>
          simp [planRecOf, compRecOf]
    · rw [h0] at h0c
      simp only [Except.ok.injEq] at h0c
      subst h0c
      rw [hrep] at hrepc
      simp only [Except.ok.injEq] at hrepc
      subst hrepc
      rcases runPER_cases _ _ _ _ _ _ _ _ _ hrun with
        ⟨recs, hpl, -, htrace⟩ | ⟨f1, k, recs, e, hpl, -, -, htrace⟩ |
        ⟨f1, k, recs, appCode, e, hpl, -, -, -, htrace⟩ |
        ⟨f1, k, recs, appCode, acc2, hpl, -, -, -, htrace⟩ <;>
        rw [hpn, pagesLoop_nil] at hpl
      · simp at hpl
      · simp only [Prod.mk.injEq, Option.some.injEq] at hpl
        obtain ⟨-, hrecs⟩ := hpl
        rw [htrace, ← hrecs] at hrc
        have hmem : rc = planRecOf sf ∨
            rc = (⟨k, .entry, [], false⟩ : CallRec) := by
          simpa using hrc
        rcases hmem with hm | hm <;> rw [hm] <;>
          simp [planRecOf]
      · simp only [Prod.mk.injEq, Option.some.injEq] at hpl
        obtain ⟨-, hrecs⟩ := hpl
        rw [htrace, ← hrecs] at hrc
        have hmem : rc = planRecOf sf ∨
            rc = (⟨k, .entry, [], false⟩ : CallRec) ∨
            rc = (⟨k + 1, .review, [(imagePartsOf sf)[0]?], true⟩ : CallRec) := by
          simpa using hrc
        rcases hmem with hm | hm | hm <;> rw [hm] <;>
          simp [planRecOf]
      · simp only [Prod.mk.injEq, Option.some.injEq] at hpl
        obtain ⟨-, hrecs⟩ := hpl
        rw [htrace, ← hrecs] at hrc
        have hmem : rc = planRecOf sf ∨
            rc = (⟨k, .entry, [], false⟩ : CallRec) ∨
            rc = (⟨k + 1, .review, [(imagePartsOf sf)[0]?], true⟩ : CallRec) := by
          simpa using hrc
        rcases hmem with hm | hm | hm <;> rw [hm] <;>
          simp [planRecOf]
  · intro acc hacc
    match hres : resp with
    | .badRequest m => simp [responseAccuracy] at hacc
    | .serverError m => simp [responseAccuracy] at hacc
    | .ok files acc2 =>
      simp only [responseAccuracy, Option.some.injEq] at hacc
      subst hacc
      obtain ⟨t2, rawPlan2, startIdx, files0, trace0, files1, k, recs, appCode,
        hsf, h0c, hrepc, hbranch, hpl, hk, hrecs, hpagesok, hentry, hreview, hfiles, htrace⟩ :=
        generateCode_ok_spec _ _ _ _ _ _ _ _ _ _ _ h
      rw [h0] at h0c
      simp only [Except.ok.injEq] at h0c
      subst h0c
      rw [hrep] at hrepc
      simp only [Except.ok.injEq] at hrepc
      subst hrepc
      refine ⟨k, appCode, files, rfl, hentry, ?_, ?_, hreview⟩
      · rw [htrace]
        simp
      · rw [hfiles, objGet_getProjectFiles_appjs, objGet_objSet_self]
  · intro hcomps hsf a b h1 h2
    have hcn : (normalizePlan rand rawPlan).reusable_components = [] := by
      simp [normalizePlan, hcomps]
    have heq : generateCode oracle pp cp pc cc rand pn sf
        = (.ok (getProjectFiles pn (objSet [] "src/App.js" a)) b,
           [planRecOf sf, ⟨1, .entry, [], false⟩,
            ⟨2, .review, [(imagePartsOf sf)[0]?], true⟩]) := by
      simp [generateCode, hsf, h0, hrep, hcn, runPagesEntryReview, hpn, pagesLoop_nil, h1, h2]
    rw [heq] at h
    exact (congrArg Prod.fst h).symm

/-- C1 witness: the amended theorem applied to the concrete empty-plan
run. -/
theorem empty_plan_run_spec_witness :
    (generateCode emptyPlanOracle demoParsePlanEmpty (fun _ => .ok "x")
        (fun _ => none) (fun _ => .ok "x") 0 "p" [("i", "m")]).1
      = .ok (getProjectFiles "p" (objSet [] "src/App.js" "ENTRYCODE")) "review!" := by
  exact (empty_plan_run_spec _ _ _ _ _ _ _ _ _ _ "PLAN0"
    { pages := [], reusable_components := [] } Prod.mk.eta.symm rfl (by decide) rfl).2.2
    rfl (by decide) "ENTRYCODE" "review!" rfl rfl

/-! ## Claim C10 -/

/-- C10: when the normalized pages list is longer than the uploaded
screen list, the PAGES stage neither fails nor skips: provided its
invocations succeed, it completes, issuing exactly one invocation per
page, the invocation for page index j carrying the single attachment
`[imageParts[j]]` — which is the JS value `undefined` (modeled `none`)
for every j at or beyond the number of images. -/
theorem pages_overflow_undefined_attachments
    (oracle : Nat → Except CallError String) (imgs : List GenPart)
    (pages : List String) (startIdx : Nat) (files : List (String × String))
    (hok : ∀ m, ∃ v, oracle m = .ok v) :
    ∃ fs recs,
      pagesLoop oracle imgs pages 0 startIdx files
        = (some (fs, startIdx + pages.length), recs) ∧
      recs.length = pages.length ∧
      (∀ j, j < pages.length →
        recs[j]? = some ⟨startIdx + j, .pages j, [imgs[j]?], false⟩) ∧
      (∀ j, imgs.length ≤ j → imgs[j]? = none) := by
  obtain ⟨fs, hfs⟩ := pagesLoop_all_ok oracle imgs hok pages 0 startIdx files
  refine ⟨fs, _, hfs, by simp, ?_, ?_⟩
  · intro j hj
    simp [List.getElem?_map, List.getElem?_range, hj]
  · intro j hj
    exact List.getElem?_eq_none hj

/-- C10 witness: two pages against a single image — the second PAGES
invocation carries `[undefined]`. -/
theorem pages_overflow_undefined_attachments_witness :
    ∃ fs recs,
      pagesLoop (fun _ => .ok "code") [(⟨"i", "m"⟩ : GenPart)] ["A", "B"] 0 5 []
        = (some (fs, 5 + (["A", "B"] : List String).length), recs) ∧
      recs.length = (["A", "B"] : List String).length ∧
      (∀ j, j < (["A", "B"] : List String).length →
        recs[j]? = some ⟨5 + j, .pages j, [([(⟨"i", "m"⟩ : GenPart)])[j]?], false⟩) ∧
      (∀ j, ([(⟨"i", "m"⟩ : GenPart)]).length ≤ j →
        ([(⟨"i", "m"⟩ : GenPart)])[j]? = none) := by
  exact pages_overflow_undefined_attachments (fun _ => .ok "code") _ _ 5 []
    (fun m => ⟨"code", rfl⟩)

end DigitalStudio
